import Mathlib

/-!
Verification of the staged, cache-gated summarization pipeline of the
`crev` repository (src/crev/utils/cache.py, src/crev/sum/sum_repo.py,
src/crev/sum/sum_pr.py, src/crev/sum/util.py).

The filesystem is modelled as an association list from paths (lists of
path components) to file contents.  Producers (context collectors and
LLM calls) are external collaborators; their results are parameters of
the embedded pipeline.  Python exceptions are modelled with `Except`.
-/

namespace Crev

/-- A filesystem path, as the list of its components (`Path` joins with `/`). -/
abbrev FPath := List String

/-- The error taxonomy: Python exceptions that can escape the pipeline code. -/
inductive Err where
  /-- `KeyError`/`IndexError` from `str.format` on a template. -/
  | templateError
  /-- `json.JSONDecodeError` raised by a strict `json.loads`. -/
  | jsonError
  /-- `TypeError`, e.g. `json.loads(None)`. -/
  | typeError
  /-- `ValueError`, e.g. missing LLM client. -/
  | valueError
  /-- a producer (context collector) raised. -/
  | producerError
  /-- the LLM client raised. -/
  | llmError
deriving Repr, DecidableEq

/-- The filesystem: a list of (path, content) pairs; earlier entries shadow
later ones, so `write` is overwrite semantics. -/
structure FS where
  files : List (FPath × String)
deriving Repr, DecidableEq

/-- Read a file: `Path.read_text` (also used for `Path.exists`). -/
def FS.find (fs : FS) (p : FPath) : Option String :=
  (fs.files.find? (fun e => e.1 == p)).map (fun e => e.2)

/-- `Path.exists()`. -/
def FS.existsb (fs : FS) (p : FPath) : Bool :=
  (fs.find p).isSome

/-- `Path.write_text` (full overwrite). -/
def FS.write (fs : FS) (p : FPath) (c : String) : FS :=
  ⟨(p, c) :: fs.files⟩

/-- A cache-filenames configuration: stage key to filename template
(`cache_files_config` in the source). -/
abbrev Config := List (String × String)

/-- Python `dict.get(k)` on a string-keyed dict. -/
def lookupStr (k : String) (m : List (String × String)) : Option String :=
  (m.find? (fun e => e.1 == k)).map (fun e => e.2)

/-- Worker for `str.format`: scans characters; `acc = some name` while inside
a `\x7b ... \x7d` placeholder.  A placeholder naming a missing key is a
`KeyError` (modelled as `none`). -/
def fmtAux (args : List (String × String)) : List Char → Option String → Option (List Char)
  | [], none => some []
  | [], some _ => none
  | c :: cs, none =>
    if c = '{' then fmtAux args cs (some "")
    else (fmtAux args cs none).map (fun l => c :: l)
  | c :: cs, some acc =>
    if c = '}' then
      match lookupStr acc args with
      | none => none
      | some v => (fmtAux args cs none).map (fun l => v.data ++ l)
    else fmtAux args cs (some (acc.push c))

/-- Python `template.format(**args)` for the simple `\x7bname\x7d` templates
used by the pipeline. -/
def pyFormat (s : String) (args : List (String × String)) : Option String :=
  (fmtAux args s.data none).map (fun l => String.mk l)

/-- `filename.format(**format_args) if format_args else filename`
(`cache.py` formats only when `format_args` is truthy). -/
def maybeFormat (fname : String) (args : List (String × String)) : Option String :=
  if args.isEmpty then some fname else pyFormat fname args

/-- Lines 47-50 of `cache.py`: filename from config with fallback to the
built-in default, then template formatting. -/
def resolve_filename (cfg : Config) (cache_key : String) (default_filename : String)
    (format_args : List (String × String)) : Option String :=
  maybeFormat ((lookupStr cache_key cfg).getD default_filename) format_args

/-- Lines 58-68 of `cache.py`: scan the bypass keys in order; a key not in
the config names no file (`cache_files_config.get(bypass_key)` has no
default); short-circuit on the first existing bypass file. -/
def bypass_scan (fs : FS) (output_dir : FPath) (cfg : Config)
    (format_args : List (String × String)) : List String → Except Err Bool
  | [] => .ok false
  | k :: ks =>
    match lookupStr k cfg with
    | none => bypass_scan fs output_dir cfg format_args ks
    | some fname =>
      match maybeFormat fname format_args with
      | none => .error .templateError
      | some fname2 =>
        if fs.existsb (output_dir ++ [fname2]) then .ok true
        else bypass_scan fs output_dir cfg format_args ks

/-- Outcome kind of one stage invocation. -/
inductive Oc where
  | cached | skipped | computed | failed
deriving Repr, DecidableEq

/-- Result of one `cache_file_check` invocation: the returned value
(`.ok none` = Python `None`, `.error` = an uncaught exception), the
filesystem afterwards, and whether the producer (`task`) was invoked. -/
structure CFCOut (α : Type) where
  ret : Except Err (Option α)
  fs : FS
  called : Bool
deriving Repr

/-- Classify a stage invocation (`Cached` / `Skipped` / `Computed`). -/
def CFCOut.oc (o : CFCOut α) : Oc :=
  match o.ret, o.called with
  | .error _, _ => .failed
  | .ok _, true => .computed
  | .ok none, false => .skipped
  | .ok (some _), false => .cached

/-- `cache_file_check` (cache.py lines 11-81) with `parser=None`:
1. resolve the stage's own artifact path; if the file exists, return its
   content; 2. otherwise scan the bypass keys and return `None` on a hit;
3. otherwise run the task and, when its result is not `None`, write it.
`task` is the producer's outcome when invoked (`.ok none` = returns `None`,
`.error` = raises). -/
def cache_file_check (fs : FS) (output_dir : FPath) (cfg : Config) (cache_key : String)
    (task : Except Err (Option String)) (default_filename : String)
    (bypass_keys : List String) (format_args : List (String × String)) :
    CFCOut String :=
  match resolve_filename cfg cache_key default_filename format_args with
  | none => ⟨.error .templateError, fs, false⟩
  | some filename =>
    let cache_file := output_dir ++ [filename]
    match fs.find cache_file with
    | some content => ⟨.ok (some content), fs, false⟩
    | none =>
      match bypass_scan fs output_dir cfg format_args bypass_keys with
      | .error e => ⟨.error e, fs, false⟩
      | .ok true => ⟨.ok none, fs, false⟩
      | .ok false =>
        match task with
        | .error e => ⟨.error e, fs, true⟩
        | .ok none => ⟨.ok none, fs, true⟩
        | .ok (some s) => ⟨.ok (some s), fs.write cache_file s, true⟩

/-- `cache_file_check` with a `parser` argument (used with `json.loads` by
the categorization-result stage).  The parser is applied to cached content
and to a fresh task result (cache.py lines 56 and 81); a parse failure is
an uncaught exception.  On the computed path the artifact is written
*before* line 81 parses the result, so a parse failure still leaves the
file written.  `parser(None)` is a `TypeError`. -/
def cache_file_check_parsed (α : Type) (fs : FS) (output_dir : FPath) (cfg : Config)
    (cache_key : String) (task : Except Err (Option String)) (default_filename : String)
    (bypass_keys : List String) (parser : String → Except Err α)
    (format_args : List (String × String)) : CFCOut α :=
  match resolve_filename cfg cache_key default_filename format_args with
  | none => ⟨.error .templateError, fs, false⟩
  | some filename =>
    let cache_file := output_dir ++ [filename]
    match fs.find cache_file with
    | some content =>
      match parser content with
      | .ok v => ⟨.ok (some v), fs, false⟩
      | .error e => ⟨.error e, fs, false⟩
    | none =>
      match bypass_scan fs output_dir cfg format_args bypass_keys with
      | .error e => ⟨.error e, fs, false⟩
      | .ok true => ⟨.ok none, fs, false⟩
      | .ok false =>
        match task with
        | .error e => ⟨.error e, fs, true⟩
        | .ok none => ⟨.error .typeError, fs, true⟩
        | .ok (some s) =>
          match parser s with
          | .ok v => ⟨.ok (some v), fs.write cache_file s, true⟩
          | .error e => ⟨.error e, fs.write cache_file s, true⟩

/-! ## The repository pipeline (`sum_repo.py`) -/

/-- The decoded categorization value: a JSON object mapping category names
to lists of file paths (a Python dict). -/
abbrev Cat := List (String × List String)

/-- `file_categories.get(category, [])`. -/
def catGet (d : Cat) (k : String) : List String :=
  ((d.find? (fun e => e.1 == k)).map (fun e => e.2)).getD []

/-- Index of the first occurrence of a character. -/
def findCharIdx (c : Char) : List Char → Option Nat
  | [] => none
  | a :: l => if a = c then some 0 else (findCharIdx c l).map (fun i => i + 1)

/-- Index of the last occurrence of a character. -/
def rfindCharIdx (c : Char) : List Char → Option Nat
  | [] => none
  | a :: l =>
    match rfindCharIdx c l with
    | some i => some (i + 1)
    | none => if a = c then some 0 else none

/-- Python `str.find`: index of the first occurrence, `-1` if absent. -/
def pyFind (s : String) (c : Char) : Int :=
  match findCharIdx c s.data with
  | some i => (i : Int)
  | none => -1

/-- Python `str.rfind`: index of the last occurrence, `-1` if absent. -/
def pyRfind (s : String) (c : Char) : Int :=
  match rfindCharIdx c s.data with
  | some i => (i : Int)
  | none => -1

/-- Python `s[a:b]` for the in-range indices produced by
`_parse_file_categories`. -/
def pySlice (s : String) (a b : Int) : String :=
  String.mk ((s.data.drop a.toNat).take (b - a).toNat)

/-- The default fallback categorization (sum_repo.py line 100). -/
def fallbackCat : Cat := [("app", []), ("test", []), ("infra", [])]

/-- `_parse_file_categories` (sum_repo.py lines 78-100): extract the text
from the first `\x7b` to the last `\x7d` and decode it; on a decode error
or when no such span exists, fall back to three empty category lists.
`loads` models `json.loads` (`none` = `JSONDecodeError`). -/
def parse_file_categories (loads : String → Option Cat) (llm_response : String) : Cat :=
  let start_idx := pyFind llm_response '{'
  let end_idx := pyRfind llm_response '}' + 1
  if start_idx ≠ -1 ∧ end_idx > start_idx then
    match loads (pySlice llm_response start_idx end_idx) with
    | some d => d
    | none => fallbackCat
  else fallbackCat

/-- The `json` module operations used by the categorization stage. -/
structure Codec where
  loads : String → Option Cat
  dumps : Cat → String

/-- `json.loads` as a strict parser raising `JSONDecodeError` on failure. -/
def jsonParser (codec : Codec) : String → Except Err Cat := fun s =>
  match codec.loads s with
  | some d => .ok d
  | none => .error .jsonError

/-- The external producer collaborators of one repository unit: context
collectors and LLM replies (per category for phase 3). -/
structure Producers where
  collectCat : Except Err String
  llmCatReply : Except Err String
  collectStruct : Except Err String
  llmStruct : Except Err String
  collectCategory : String → Except Err String
  llmCategory : String → Except Err String

def all_categories : List String := ["app", "test", "infra"]

/-- The bypass keys of the first stage (sum_repo.py lines 132-143): every
stage after it. -/
def phase1_bypass_keys : List String :=
  ["categorization_result", "structure_context", "structure_result",
   "app_context", "app_result", "test_context", "test_result",
   "infra_context", "infra_result", "output"]

/-- `_phase1_collect_context` (sum_repo.py lines 103-145). -/
def phase1_collect_context (fs : FS) (output_dir : FPath) (cfg : Config)
    (format_args : List (String × String)) (collect : Except Err String) :
    CFCOut String :=
  cache_file_check fs output_dir cfg "categorization_context" (collect.map some)
    "sum_repo.categorization.context.md" phase1_bypass_keys format_args

/-- `_phase1_categorize_files` (sum_repo.py lines 148-210): the producer
parses the LLM reply (with fallback) and serializes it with `json.dumps`;
cached content is parsed strictly with `json.loads`. -/
def phase1_categorize_files (fs : FS) (output_dir : FPath) (cfg : Config)
    (format_args : List (String × String)) (codec : Codec)
    (llmReply : Except Err String) : CFCOut Cat :=
  cache_file_check_parsed Cat fs output_dir cfg "categorization_result"
    (llmReply.map (fun r => some (codec.dumps (parse_file_categories codec.loads r))))
    "sum_repo.categorization.json"
    ["structure_context", "structure_result", "app_context", "app_result",
     "test_context", "test_result", "infra_context", "infra_result", "output"]
    (jsonParser codec) format_args

/-- `_phase2_collect_structure_context` (sum_repo.py lines 213-253). -/
def phase2_collect_structure_context (fs : FS) (output_dir : FPath) (cfg : Config)
    (format_args : List (String × String)) (collect : Except Err String) :
    CFCOut String :=
  cache_file_check fs output_dir cfg "structure_context" (collect.map some)
    "sum_repo.structure.context.md"
    ["structure_result", "app_context", "app_result", "test_context",
     "test_result", "infra_context", "infra_result", "output"] format_args

/-- `_phase2_summarize_structure` (sum_repo.py lines 256-305). -/
def phase2_summarize_structure (fs : FS) (output_dir : FPath) (cfg : Config)
    (format_args : List (String × String)) (llm : Except Err String) :
    CFCOut String :=
  cache_file_check fs output_dir cfg "structure_result" (llm.map some)
    "sum_repo.structure.md"
    ["app_context", "app_result", "test_context", "test_result",
     "infra_context", "infra_result", "output"] format_args

/-- Bypass keys of the phase-3a stage of `category`
(sum_repo.py lines 336-342). -/
def bypass_keys_3a (category : String) : List String :=
  let cat_idx := all_categories.findIdx (fun c => c == category)
  let later := all_categories.drop (cat_idx + 1)
  [category ++ "_result"] ++
    later.flatMap (fun c => [c ++ "_context", c ++ "_result"]) ++ ["output"]

/-- Bypass keys of the phase-3b stage of `category`
(sum_repo.py lines 384-390). -/
def bypass_keys_3b (category : String) : List String :=
  let cat_idx := all_categories.findIdx (fun c => c == category)
  let later := all_categories.drop (cat_idx + 1)
  later.flatMap (fun c => [c ++ "_context", c ++ "_result"]) ++ ["output"]

/-- `_phase3_collect_category_context` (sum_repo.py lines 308-356): `none`
models the zero-files early return that never reaches `cache_file_check`. -/
def phase3_collect_category_context (fs : FS) (output_dir : FPath) (cfg : Config)
    (format_args : List (String × String)) (d : Cat) (category : String)
    (collect : Except Err String) : Option (CFCOut String) :=
  if (catGet d category).isEmpty then none
  else some (cache_file_check fs output_dir cfg (category ++ "_context")
    (collect.map some) ("sum_repo." ++ category ++ ".context.md")
    (bypass_keys_3a category) format_args)

/-- `_phase3_analyze_category` (sum_repo.py lines 359-410). -/
def phase3_analyze_category (fs : FS) (output_dir : FPath) (cfg : Config)
    (format_args : List (String × String)) (category : String)
    (llm : Except Err String) : CFCOut String :=
  cache_file_check fs output_dir cfg (category ++ "_result") (llm.map some)
    ("sum_repo." ++ category ++ ".md") (bypass_keys_3b category) format_args

def natOf (b : Bool) : Nat := if b then 1 else 0

/-- State threaded through the phase-3 category loop: filesystem, number of
producer invocations so far, per-stage outcome trace, and the
`category_summaries` dict. -/
structure P3State where
  fs : FS
  calls : Nat
  trace : List (String × Oc)
  sums : List (String × String)

structure P3Out where
  res : Except Err Unit
  st : P3State

/-- The `for category in categories` loop of `summarize_repo`
(sum_repo.py lines 578-603): a `None` context (zero files or bypass skip)
continues with the next category; a `None` summary adds nothing. -/
def phase3_loop (output_dir : FPath) (cfg : Config)
    (format_args : List (String × String)) (prods : Producers) (d : Cat) :
    List String → P3State → P3Out
  | [], st => ⟨.ok (), st⟩
  | category :: rest, st =>
    match phase3_collect_category_context st.fs output_dir cfg format_args d
        category (prods.collectCategory category) with
    | none => phase3_loop output_dir cfg format_args prods d rest st
    | some o3a =>
      let st1 : P3State := ⟨o3a.fs, st.calls + natOf o3a.called,
        st.trace ++ [(category ++ "_context", o3a.oc)], st.sums⟩
      match o3a.ret with
      | .error e => ⟨.error e, st1⟩
      | .ok none => phase3_loop output_dir cfg format_args prods d rest st1
      | .ok (some _ctx) =>
        let o3b := phase3_analyze_category st1.fs output_dir cfg format_args
          category (prods.llmCategory category)
        let st2 : P3State := ⟨o3b.fs, st1.calls + natOf o3b.called,
          st1.trace ++ [(category ++ "_result", o3b.oc)], st1.sums⟩
        match o3b.ret with
        | .error e => ⟨.error e, st2⟩
        | .ok none => phase3_loop output_dir cfg format_args prods d rest st2
        | .ok (some s) => phase3_loop output_dir cfg format_args prods d rest
            ⟨st2.fs, st2.calls, st2.trace, st2.sums ++ [(category, s)]⟩

/-- Python `str.title()` on a single lowercase word. -/
def pyTitle (s : String) : String :=
  match s.data with
  | [] => ""
  | c :: cs => String.mk (c.toUpper :: cs)

/-- The `combine_task` closure of `_combine_output`
(sum_repo.py lines 440-459). -/
def combine_task (repo_name : String) (commit_count : Nat) (short_hash : String)
    (structure_summary : String) (category_summaries : List (String × String)) :
    String :=
  let output_parts :=
    ["# Repository Summary: " ++ repo_name,
     "\n*Generated from commit #" ++ toString commit_count ++ " (" ++ short_hash ++ ")*\n",
     "---\n", "## Repository Structure\n", structure_summary, "\n---\n"] ++
    all_categories.flatMap (fun category =>
      match lookupStr category category_summaries with
      | some s => ["## " ++ pyTitle category ++ " Analysis\n", s, "\n---\n"]
      | none => [])
  String.intercalate "\n" output_parts

/-- `_combine_output` (sum_repo.py lines 413-468): the final stage has no
bypass keys. -/
def combine_output (fs : FS) (output_dir : FPath) (cfg : Config)
    (format_args : List (String × String)) (repo_name : String)
    (commit_count : Nat) (short_hash : String) (structure_summary : String)
    (category_summaries : List (String × String)) : CFCOut String :=
  cache_file_check fs output_dir cfg "output"
    (.ok (some (combine_task repo_name commit_count short_hash
      structure_summary category_summaries)))
    "sum.repo.{commit_count}.{short_hash}.ai.md" [] format_args

/-- Result of one repository-unit pipeline run. -/
structure RunOut where
  res : Except Err Unit
  fs : FS
  calls : Nat
  trace : List (String × Oc)

def repo_format_args (commit_count : Nat) (short_hash : String) :
    List (String × String) :=
  [("commit_count", toString commit_count), ("short_hash", short_hash)]

def repo_output_dir (org repo_name : String) : FPath :=
  ["pullrequests", org, repo_name, "sum"]

/-- `summarize_repo` (sum_repo.py lines 471-615).  `repo_present` models the
`repos` directory / repository path existence pre-checks (early return);
`commit_count` / `short_hash` are the result of `_get_git_version_info`;
`llm_provided` models whether an LLM client was injected. -/
def summarize_repo (repo_name org : String) (repo_present : Bool)
    (commit_count : Nat) (short_hash : String) (cfg : Config) (codec : Codec)
    (prods : Producers) (llm_provided : Bool) (context_only : Bool)
    (fs : FS) : RunOut :=
  if !repo_present then ⟨.ok (), fs, 0, []⟩ else
  let output_dir := repo_output_dir org repo_name
  let format_args := repo_format_args commit_count short_hash
  let o1a := phase1_collect_context fs output_dir cfg format_args prods.collectCat
  let c1 := natOf o1a.called
  let t1 : List (String × Oc) := [("categorization_context", o1a.oc)]
  match o1a.ret with
  | .error e => ⟨.error e, o1a.fs, c1, t1⟩
  | .ok none => ⟨.ok (), o1a.fs, c1, t1⟩
  | .ok (some _flc) =>
    if context_only then ⟨.ok (), o1a.fs, c1, t1⟩ else
    if !llm_provided then ⟨.error .valueError, o1a.fs, c1, t1⟩ else
    let o1b := phase1_categorize_files o1a.fs output_dir cfg format_args codec
      prods.llmCatReply
    let c2 := c1 + natOf o1b.called
    let t2 := t1 ++ [("categorization_result", o1b.oc)]
    match o1b.ret with
    | .error e => ⟨.error e, o1b.fs, c2, t2⟩
    | .ok none => ⟨.ok (), o1b.fs, c2, t2⟩
    | .ok (some d) =>
      let o2a := phase2_collect_structure_context o1b.fs output_dir cfg
        format_args prods.collectStruct
      let c3 := c2 + natOf o2a.called
      let t3 := t2 ++ [("structure_context", o2a.oc)]
      match o2a.ret with
      | .error e => ⟨.error e, o2a.fs, c3, t3⟩
      | .ok none => ⟨.ok (), o2a.fs, c3, t3⟩
      | .ok (some _sc) =>
        let o2b := phase2_summarize_structure o2a.fs output_dir cfg format_args
          prods.llmStruct
        let c4 := c3 + natOf o2b.called
        let t4 := t3 ++ [("structure_result", o2b.oc)]
        match o2b.ret with
        | .error e => ⟨.error e, o2b.fs, c4, t4⟩
        | .ok none => ⟨.ok (), o2b.fs, c4, t4⟩
        | .ok (some structure_summary) =>
          let p3 := phase3_loop output_dir cfg format_args prods d
            all_categories ⟨o2b.fs, c4, t4, []⟩
          match p3.res with
          | .error e => ⟨.error e, p3.st.fs, p3.st.calls, p3.st.trace⟩
          | .ok _ =>
            let oc5 := combine_output p3.st.fs output_dir cfg format_args
              repo_name commit_count short_hash structure_summary p3.st.sums
            let t5 := p3.st.trace ++ [("output", oc5.oc)]
            match oc5.ret with
            | .error e => ⟨.error e, oc5.fs, p3.st.calls + natOf oc5.called, t5⟩
            | .ok _ => ⟨.ok (), oc5.fs, p3.st.calls + natOf oc5.called, t5⟩

/-! ## The pull-request pipeline (`sum_pr.py`) -/

/-- `pr_dir = Path("pullrequests") / repo_name / str(pr_number)`
(sum_pr.py line 125). -/
def pr_dir (repo_name : String) (pr_number : Nat) : FPath :=
  ["pullrequests", repo_name, toString pr_number]

/-- The PR output artifact, `pr_dir / f"summary.pr.\x7bpr_number\x7d.ai.txt"`
(sum_pr.py line 133). -/
def pr_output_file (repo_name : String) (pr_number : Nat) : FPath :=
  pr_dir repo_name pr_number ++ ["summary.pr." ++ toString pr_number ++ ".ai.txt"]

/-- The PR context artifact, `pr_dir / "sum" / "sum.context.md"`
(sum_pr.py lines 138-142). -/
def pr_context_file (repo_name : String) (pr_number : Nat) : FPath :=
  pr_dir repo_name pr_number ++ ["sum", "sum.context.md"]

/-- Result of one PR-unit pipeline run. -/
structure PrOut where
  res : Except Err Unit
  fs : FS

/-- `summarize_pr` (sum_pr.py lines 106-166).  `pr_present` models the PR
directory pre-check; `collectCtx` is the outcome of `collect_pr_context`;
`llm = none` models a missing LLM client (whose use raises `ValueError`);
`some r` carries the LLM call outcome used by `generate_summary_with_llm`,
which re-raises failures after logging (util.py lines 141-156). -/
def summarize_pr (repo_name : String) (pr_number : Nat) (pr_present : Bool)
    (collectCtx : Except Err String) (llm : Option (Except Err String))
    (context_only : Bool) (fs : FS) : PrOut :=
  if !pr_present then ⟨.ok (), fs⟩ else
  let output_file := pr_output_file repo_name pr_number
  -- `should_skip_existing` (util.py lines 111-123), checked only when
  -- summaries are to be generated
  if !context_only && fs.existsb output_file then ⟨.ok (), fs⟩ else
  let context_file := pr_context_file repo_name pr_number
  match fs.find context_file with
  | some pr_context =>
    if context_only then ⟨.ok (), fs⟩ else
    match llm with
    | none => ⟨.error .valueError, fs⟩
    | some r =>
      let _ := pr_context
      match r with
      | .error e => ⟨.error e, fs⟩
      | .ok summary => ⟨.ok (), fs.write output_file summary⟩
  | none =>
    match collectCtx with
    | .error e => ⟨.error e, fs⟩
    | .ok c =>
      let fs1 := fs.write context_file c
      if context_only then ⟨.ok (), fs1⟩ else
      match llm with
      | none => ⟨.error .valueError, fs1⟩
      | some r =>
        match r with
        | .error e => ⟨.error e, fs1⟩
        | .ok summary => ⟨.ok (), fs1.write output_file summary⟩

/-! ## The batch drivers (`sum_repo.py` lines 618-647, `sum_pr.py` lines
169-217) -/

/-- One entry of the configured repo list; `none` models a missing
`name`/`org` field. -/
structure RepoEntry where
  name : Option String
  org : Option String

/-- Everything unit-specific the repository pipeline consumes: the
pre-check, the git version info, and the unit's producers. -/
structure UnitData where
  present : Bool
  commit_count : Nat
  short_hash : String
  prods : Producers

/-- Result of a batch-driver run: `done` records whether the final
`"Done."` completion line was printed; `processed` lists the (org, name)
units whose pipeline was invoked, in order. -/
structure DriverOut where
  res : Except Err Unit
  fs : FS
  processed : List (String × String)
  done : Bool

/-- The unit loop of `sum_repo` (sum_repo.py lines 637-647): entries with a
missing name or org are reported and skipped; `summarize_repo` is invoked
with no surrounding try/except, so an exception propagates and the final
`"Done."` line is not reached. -/
def sum_repo_driver (cfg : Config) (codec : Codec) (data : String → String → UnitData)
    (context_only : Bool) : List RepoEntry → FS → DriverOut
  | [], fs => ⟨.ok (), fs, [], true⟩
  | e :: rest, fs =>
    match e.name, e.org with
    | some n, some o =>
      let u := data n o
      let r := summarize_repo n o u.present u.commit_count u.short_hash cfg codec
        u.prods (!context_only) context_only fs
      match r.res with
      | .error err => ⟨.error err, r.fs, [(o, n)], false⟩
      | .ok _ =>
        let drest := sum_repo_driver cfg codec data context_only rest r.fs
        ⟨drest.res, drest.fs, (o, n) :: drest.processed, drest.done⟩
    | _, _ => sum_repo_driver cfg codec data context_only rest fs

/-- Unit-specific data for one PR of the PR batch. -/
structure PrUnitData where
  present : Bool
  collectCtx : Except Err String
  llmReply : Except Err String

/-- Result of the PR batch loop. -/
structure PrDriverOut where
  res : Except Err Unit
  fs : FS
  processed : List Nat
  done : Bool

/-- The PR loop of `sum_pr` (sum_pr.py lines 209-217): non-integer entries
are reported and skipped; `summarize_pr` is invoked with no surrounding
try/except. -/
def sum_pr_driver (repo_name : String) (data : Nat → PrUnitData)
    (context_only : Bool) : List (Option Nat) → FS → PrDriverOut
  | [], fs => ⟨.ok (), fs, [], true⟩
  | none :: rest, fs => sum_pr_driver repo_name data context_only rest fs
  | some pr :: rest, fs =>
    let u := data pr
    let r := summarize_pr repo_name pr u.present u.collectCtx
      (if context_only then none else some u.llmReply) context_only fs
    match r.res with
    | .error err => ⟨.error err, r.fs, [pr], false⟩
    | .ok _ =>
      let drest := sum_pr_driver repo_name data context_only rest r.fs
      ⟨drest.res, drest.fs, pr :: drest.processed, drest.done⟩

/-! ## Basic filesystem lemmas -/

theorem FS.find_write_self (fs : FS) (p : FPath) (c : String) :
    (fs.write p c).find p = some c := by
  simp [FS.write, FS.find, List.find?]

theorem FS.find_write_ne (fs : FS) {p q : FPath} (c : String) (h : p ≠ q) :
    (fs.write q c).find p = fs.find p := by
  have hq : (q == p) = false := by
    simp only [beq_eq_false_iff_ne]
    exact fun hh => h hh.symm
  simp [FS.write, FS.find, List.find?, hq]

/-- `fs1` is contained in `fs2`: every file of `fs1` is present in `fs2`
with the same content. -/
def FS.Sub (fs1 fs2 : FS) : Prop :=
  ∀ p c, fs1.find p = some c → fs2.find p = some c

theorem FS.Sub.rfl (fs : FS) : FS.Sub fs fs := fun _ _ h => h

theorem FS.Sub.trans {fs1 fs2 fs3 : FS} (h1 : FS.Sub fs1 fs2)
    (h2 : FS.Sub fs2 fs3) : FS.Sub fs1 fs3 :=
  fun p c h => h2 p c (h1 p c h)

/-- Writing a file that does not exist preserves all existing files. -/
theorem FS.sub_write (fs : FS) {q : FPath} (c : String)
    (h : fs.find q = none) : FS.Sub fs (fs.write q c) := by
  intro p cc hp
  rcases eq_or_ne p q with rfl | hne
  · rw [hp] at h; exact absurd h (by simp)
  · rw [FS.find_write_ne fs c hne]; exact hp

/-- Existence is monotone under `FS.Sub`. -/
theorem FS.Sub.existsb {fs1 fs2 : FS} (h : FS.Sub fs1 fs2) (p : FPath)
    (hp : fs1.existsb p = true) : fs2.existsb p = true := by
  unfold FS.existsb at hp ⊢
  cases hfind : fs1.find p with
  | none => rw [hfind] at hp; simp at hp
  | some c => rw [h p c hfind]; simp

/-! ## Lemmas about `cache_file_check` -/

/-- The path of a stage's own artifact, when its template resolves. -/
def own_path (output_dir : FPath) (cfg : Config) (cache_key default_filename : String)
    (format_args : List (String × String)) : Option FPath :=
  (resolve_filename cfg cache_key default_filename format_args).map
    (fun f => output_dir ++ [f])

/-- Some bypass key of the stage names (through the configuration) a file
that exists: the condition of step 2 of the Stage Executor. -/
def bypass_file_exists (fs : FS) (output_dir : FPath) (cfg : Config)
    (format_args : List (String × String)) (bypass_keys : List String) : Prop :=
  ∃ k f f2, k ∈ bypass_keys ∧ lookupStr k cfg = some f ∧
    maybeFormat f format_args = some f2 ∧
    fs.existsb (output_dir ++ [f2]) = true

theorem bypass_scan_true_of_exists {fs : FS} {output_dir : FPath} {cfg : Config}
    {format_args : List (String × String)} {bypass_keys : List String}
    (hok : ∃ b, bypass_scan fs output_dir cfg format_args bypass_keys = .ok b)
    (hex : bypass_file_exists fs output_dir cfg format_args bypass_keys) :
    bypass_scan fs output_dir cfg format_args bypass_keys = .ok true := by
  induction bypass_keys with
  | nil => rcases hex with ⟨k, f, f2, hk, _⟩; exact absurd hk (List.not_mem_nil k)
  | cons k0 ks ih =>
    rcases hex with ⟨k, f, f2, hk, hf, hf2, hexi⟩
    rcases List.mem_cons.mp hk with rfl | hmem
    · simp only [bypass_scan, hf, hf2, hexi, if_true]
    · simp only [bypass_scan] at hok ⊢
      cases hl : lookupStr k0 cfg with
      | none =>
        simp only [hl] at hok ⊢
        exact ih hok ⟨k, f, f2, hmem, hf, hf2, hexi⟩
      | some f0 =>
        simp only [hl] at hok ⊢
        cases hm : maybeFormat f0 format_args with
        | none => simp only [hm] at hok; rcases hok with ⟨b, hb⟩; cases hb
        | some f02 =>
          simp only [hm] at hok ⊢
          by_cases hx : fs.existsb (output_dir ++ [f02]) = true
          · simp only [hx, if_true]
          · simp only [Bool.not_eq_true] at hx
            simp only [hx, Bool.false_eq_true, if_false] at hok ⊢
            exact ih hok ⟨k, f, f2, hmem, hf, hf2, hexi⟩

theorem bypass_exists_of_scan_true {fs : FS} {output_dir : FPath} {cfg : Config}
    {format_args : List (String × String)} {bypass_keys : List String}
    (h : bypass_scan fs output_dir cfg format_args bypass_keys = .ok true) :
    bypass_file_exists fs output_dir cfg format_args bypass_keys := by
  induction bypass_keys with
  | nil => simp only [bypass_scan] at h; cases h
  | cons k0 ks ih =>
    simp only [bypass_scan] at h
    cases hl : lookupStr k0 cfg with
    | none =>
      simp only [hl] at h
      rcases ih h with ⟨k, f, f2, hk, hf, hf2, hexi⟩
      exact ⟨k, f, f2, List.mem_cons_of_mem _ hk, hf, hf2, hexi⟩
    | some f0 =>
      simp only [hl] at h
      cases hm : maybeFormat f0 format_args with
      | none => simp only [hm] at h; cases h
      | some f02 =>
        simp only [hm] at h
        by_cases hx : fs.existsb (output_dir ++ [f02]) = true
        · exact ⟨k0, f0, f02, List.mem_cons_self k0 ks, hl, hm, hx⟩
        · simp only [Bool.not_eq_true] at hx
          simp only [hx, Bool.false_eq_true, if_false] at h
          rcases ih h with ⟨k, f, f2, hk, hf, hf2, hexi⟩
          exact ⟨k, f, f2, List.mem_cons_of_mem _ hk, hf, hf2, hexi⟩

section CfcCases

variable {fs : FS} {output_dir : FPath} {cfg : Config} {cache_key : String}
  {task : Except Err (Option String)} {default_filename : String}
  {bypass_keys : List String} {format_args : List (String × String)}
  {fn : String}

theorem cfc_resolve_none
    (hres : resolve_filename cfg cache_key default_filename format_args = none) :
    cache_file_check fs output_dir cfg cache_key task default_filename
      bypass_keys format_args = ⟨.error .templateError, fs, false⟩ := by
  simp only [cache_file_check, hres]

theorem cfc_cached {c : String}
    (hres : resolve_filename cfg cache_key default_filename format_args = some fn)
    (hc : fs.find (output_dir ++ [fn]) = some c) :
    cache_file_check fs output_dir cfg cache_key task default_filename
      bypass_keys format_args = ⟨.ok (some c), fs, false⟩ := by
  simp only [cache_file_check, hres, hc]

theorem cfc_skip
    (hres : resolve_filename cfg cache_key default_filename format_args = some fn)
    (hn : fs.find (output_dir ++ [fn]) = none)
    (hscan : bypass_scan fs output_dir cfg format_args bypass_keys = .ok true) :
    cache_file_check fs output_dir cfg cache_key task default_filename
      bypass_keys format_args = ⟨.ok none, fs, false⟩ := by
  simp only [cache_file_check, hres, hn, hscan]

theorem cfc_scan_error {e : Err}
    (hres : resolve_filename cfg cache_key default_filename format_args = some fn)
    (hn : fs.find (output_dir ++ [fn]) = none)
    (hscan : bypass_scan fs output_dir cfg format_args bypass_keys = .error e) :
    cache_file_check fs output_dir cfg cache_key task default_filename
      bypass_keys format_args = ⟨.error e, fs, false⟩ := by
  simp only [cache_file_check, hres, hn, hscan]

theorem cfc_compute
    (hres : resolve_filename cfg cache_key default_filename format_args = some fn)
    (hn : fs.find (output_dir ++ [fn]) = none)
    (hscan : bypass_scan fs output_dir cfg format_args bypass_keys = .ok false) :
    cache_file_check fs output_dir cfg cache_key task default_filename
      bypass_keys format_args =
      match task with
      | .error e => ⟨.error e, fs, true⟩
      | .ok none => ⟨.ok none, fs, true⟩
      | .ok (some s) => ⟨.ok (some s), fs.write (output_dir ++ [fn]) s, true⟩ := by
  simp only [cache_file_check, hres, hn, hscan]

variable {α : Type} {parser : String → Except Err α}

theorem cfcp_resolve_none
    (hres : resolve_filename cfg cache_key default_filename format_args = none) :
    cache_file_check_parsed α fs output_dir cfg cache_key task default_filename
      bypass_keys parser format_args = ⟨.error .templateError, fs, false⟩ := by
  simp only [cache_file_check_parsed, hres]

theorem cfcp_cached {c : String}
    (hres : resolve_filename cfg cache_key default_filename format_args = some fn)
    (hc : fs.find (output_dir ++ [fn]) = some c) :
    cache_file_check_parsed α fs output_dir cfg cache_key task default_filename
      bypass_keys parser format_args =
      match parser c with
      | .ok v => ⟨.ok (some v), fs, false⟩
      | .error e => ⟨.error e, fs, false⟩ := by
  simp only [cache_file_check_parsed, hres, hc]

theorem cfcp_skip
    (hres : resolve_filename cfg cache_key default_filename format_args = some fn)
    (hn : fs.find (output_dir ++ [fn]) = none)
    (hscan : bypass_scan fs output_dir cfg format_args bypass_keys = .ok true) :
    cache_file_check_parsed α fs output_dir cfg cache_key task default_filename
      bypass_keys parser format_args = ⟨.ok none, fs, false⟩ := by
  simp only [cache_file_check_parsed, hres, hn, hscan]

theorem cfcp_scan_error {e : Err}
    (hres : resolve_filename cfg cache_key default_filename format_args = some fn)
    (hn : fs.find (output_dir ++ [fn]) = none)
    (hscan : bypass_scan fs output_dir cfg format_args bypass_keys = .error e) :
    cache_file_check_parsed α fs output_dir cfg cache_key task default_filename
      bypass_keys parser format_args = ⟨.error e, fs, false⟩ := by
  simp only [cache_file_check_parsed, hres, hn, hscan]

theorem cfcp_compute_error {e : Err}
    (hres : resolve_filename cfg cache_key default_filename format_args = some fn)
    (hn : fs.find (output_dir ++ [fn]) = none)
    (hscan : bypass_scan fs output_dir cfg format_args bypass_keys = .ok false)
    (htask : task = .error e) :
    cache_file_check_parsed α fs output_dir cfg cache_key task default_filename
      bypass_keys parser format_args = ⟨.error e, fs, true⟩ := by
  simp only [cache_file_check_parsed, hres, hn, hscan, htask]

theorem cfcp_compute_none
    (hres : resolve_filename cfg cache_key default_filename format_args = some fn)
    (hn : fs.find (output_dir ++ [fn]) = none)
    (hscan : bypass_scan fs output_dir cfg format_args bypass_keys = .ok false)
    (htask : task = .ok none) :
    cache_file_check_parsed α fs output_dir cfg cache_key task default_filename
      bypass_keys parser format_args = ⟨.error .typeError, fs, true⟩ := by
  simp only [cache_file_check_parsed, hres, hn, hscan, htask]

theorem cfcp_compute_some {s : String} {v : α}
    (hres : resolve_filename cfg cache_key default_filename format_args = some fn)
    (hn : fs.find (output_dir ++ [fn]) = none)
    (hscan : bypass_scan fs output_dir cfg format_args bypass_keys = .ok false)
    (htask : task = .ok (some s)) (hp : parser s = .ok v) :
    cache_file_check_parsed α fs output_dir cfg cache_key task default_filename
      bypass_keys parser format_args =
      ⟨.ok (some v), fs.write (output_dir ++ [fn]) s, true⟩ := by
  simp only [cache_file_check_parsed, hres, hn, hscan, htask, hp]

theorem cfcp_compute_some_perr {s : String} {e : Err}
    (hres : resolve_filename cfg cache_key default_filename format_args = some fn)
    (hn : fs.find (output_dir ++ [fn]) = none)
    (hscan : bypass_scan fs output_dir cfg format_args bypass_keys = .ok false)
    (htask : task = .ok (some s)) (hp : parser s = .error e) :
    cache_file_check_parsed α fs output_dir cfg cache_key task default_filename
      bypass_keys parser format_args =
      ⟨.error e, fs.write (output_dir ++ [fn]) s, true⟩ := by
  simp only [cache_file_check_parsed, hres, hn, hscan, htask, hp]

end CfcCases

/-- `cache_file_check` never mutates or deletes an existing file: it writes
only a path that did not exist at check time. -/
theorem cfc_sub (fs : FS) (output_dir : FPath) (cfg : Config) (cache_key : String)
    (task : Except Err (Option String)) (default_filename : String)
    (bypass_keys : List String) (format_args : List (String × String)) :
    FS.Sub fs (cache_file_check fs output_dir cfg cache_key task
      default_filename bypass_keys format_args).fs := by
  cases hres : resolve_filename cfg cache_key default_filename format_args with
  | none => rw [cfc_resolve_none hres]; exact FS.Sub.rfl fs
  | some fn =>
    cases hn : fs.find (output_dir ++ [fn]) with
    | some c => rw [cfc_cached hres hn]; exact FS.Sub.rfl fs
    | none =>
      cases hscan : bypass_scan fs output_dir cfg format_args bypass_keys with
      | error e => rw [cfc_scan_error hres hn hscan]; exact FS.Sub.rfl fs
      | ok b =>
        cases b with
        | true => rw [cfc_skip hres hn hscan]; exact FS.Sub.rfl fs
        | false =>
          rw [cfc_compute hres hn hscan]
          cases task with
          | error e => exact FS.Sub.rfl fs
          | ok r =>
            cases r with
            | none => exact FS.Sub.rfl fs
            | some s => exact FS.sub_write fs s hn

/-- Same no-overwrite property for the parsed variant. -/
theorem cfcp_sub {α : Type} (fs : FS) (output_dir : FPath) (cfg : Config)
    (cache_key : String) (task : Except Err (Option String))
    (default_filename : String) (bypass_keys : List String)
    (parser : String → Except Err α) (format_args : List (String × String)) :
    FS.Sub fs (cache_file_check_parsed α fs output_dir cfg cache_key task
      default_filename bypass_keys parser format_args).fs := by
  cases hres : resolve_filename cfg cache_key default_filename format_args with
  | none => rw [cfcp_resolve_none hres]; exact FS.Sub.rfl fs
  | some fn =>
    cases hn : fs.find (output_dir ++ [fn]) with
    | some c =>
      rw [cfcp_cached hres hn]
      cases parser c with
      | ok v => exact FS.Sub.rfl fs
      | error e => exact FS.Sub.rfl fs
    | none =>
      cases hscan : bypass_scan fs output_dir cfg format_args bypass_keys with
      | error e => rw [cfcp_scan_error hres hn hscan]; exact FS.Sub.rfl fs
      | ok b =>
        cases b with
        | true => rw [cfcp_skip hres hn hscan]; exact FS.Sub.rfl fs
        | false =>
          cases task with
          | error e => rw [cfcp_compute_error hres hn hscan rfl]; exact FS.Sub.rfl fs
          | ok r =>
            cases r with
            | none => rw [cfcp_compute_none hres hn hscan rfl]; exact FS.Sub.rfl fs
            | some s =>
              cases hp : parser s with
              | ok v =>
                rw [cfcp_compute_some hres hn hscan rfl hp]
                exact FS.sub_write fs s hn
              | error e =>
                rw [cfcp_compute_some_perr hres hn hscan rfl hp]
                exact FS.sub_write fs s hn

/-! ## The first-brace-to-last-brace span, as the spec words it -/

/-- The substring of `s` from the first occurrence of `\x7b` to the last
occurrence of `\x7d` (inclusive), when the first `\x7b` is not after the
last `\x7d`; `none` otherwise (also when a brace is missing). -/
def braceSpan (s : String) : Option String :=
  match findCharIdx '{' s.data, rfindCharIdx '}' s.data with
  | some i, some j =>
    if i ≤ j then some (String.mk ((s.data.drop i).take (j + 1 - i))) else none
  | some _, none => none
  | none, _ => none

/-- The code's `find`/`rfind`/slice arithmetic on `-1` sentinels computes
exactly the first-brace-to-last-brace span: `_parse_file_categories`
returns the decoded span when it decodes, and the fallback otherwise. -/
theorem parse_file_categories_eq_braceSpan (loads : String → Option Cat) (s : String) :
    parse_file_categories loads s =
      match braceSpan s with
      | some sub =>
        match loads sub with
        | some d => d
        | none => fallbackCat
      | none => fallbackCat := by
  unfold parse_file_categories braceSpan pyFind pyRfind
  cases h1 : findCharIdx '{' s.data with
  | none =>
    cases h2 : rfindCharIdx '}' s.data with
    | none =>
      simp only [h1, h2]
      have hcond : ¬((-1 : Int) ≠ -1 ∧ (-1 : Int) + 1 > (-1 : Int)) := by omega
      rw [if_neg hcond]
    | some j =>
      simp only [h1, h2]
      have hcond : ¬((-1 : Int) ≠ -1 ∧ (j : Int) + 1 > (-1 : Int)) := by omega
      rw [if_neg hcond]
  | some i =>
    cases h2 : rfindCharIdx '}' s.data with
    | none =>
      simp only [h1, h2]
      have hcond : ¬((i : Int) ≠ -1 ∧ (-1 : Int) + 1 > (i : Int)) := by omega
      rw [if_neg hcond]
    | some j =>
      simp only [h1, h2]
      by_cases hij : i ≤ j
      · have hcond : ((i : Int) ≠ -1 ∧ (j : Int) + 1 > (i : Int)) := by
          constructor
          · omega
          · omega
        rw [if_pos hcond, if_pos hij]
        have hslice : pySlice s (i : Int) ((j : Int) + 1) =
            String.mk ((s.data.drop i).take (j + 1 - i)) := by
          unfold pySlice
          have ha : ((i : Int)).toNat = i := by omega
          have hb : (((j : Int) + 1) - (i : Int)).toNat = j + 1 - i := by omega
          rw [ha, hb]
        rw [hslice]
      · have hcond : ¬((i : Int) ≠ -1 ∧ (j : Int) + 1 > (i : Int)) := by
          intro hc
          omega
        rw [if_neg hcond, if_neg hij]

/-- The built-in default filename of every repo-pipeline stage key, as a
configuration (the per-stage `default_filename` arguments in
`sum_repo.py`). -/
def cfgFullDefault : Config :=
  [("categorization_context", "sum_repo.categorization.context.md"),
   ("categorization_result", "sum_repo.categorization.json"),
   ("structure_context", "sum_repo.structure.context.md"),
   ("structure_result", "sum_repo.structure.md"),
   ("app_context", "sum_repo.app.context.md"),
   ("app_result", "sum_repo.app.md"),
   ("test_context", "sum_repo.test.context.md"),
   ("test_result", "sum_repo.test.md"),
   ("infra_context", "sum_repo.infra.context.md"),
   ("infra_result", "sum_repo.infra.md"),
   ("output", "sum.repo.{commit_count}.{short_hash}.ai.md")]

/-! ## Batch-driver lemmas -/

/-- The valid (org, name) units of a configured repo list, in order. -/
def valid_units (repos : List RepoEntry) : List (String × String) :=
  repos.filterMap (fun e =>
    match e.name, e.org with
    | some n, some o => some (o, n)
    | _, _ => none)

theorem valid_units_cons_valid {e : RepoEntry} {n o : String}
    (hn : e.name = some n) (ho : e.org = some o) (rest : List RepoEntry) :
    valid_units (e :: rest) = (o, n) :: valid_units rest := by
  simp [valid_units, List.filterMap_cons, hn, ho]

theorem valid_units_cons_no_name {e : RepoEntry} (hn : e.name = none)
    (rest : List RepoEntry) :
    valid_units (e :: rest) = valid_units rest := by
  simp [valid_units, List.filterMap_cons, hn]

theorem valid_units_cons_no_org {e : RepoEntry} {n : String}
    (hn : e.name = some n) (ho : e.org = none) (rest : List RepoEntry) :
    valid_units (e :: rest) = valid_units rest := by
  simp [valid_units, List.filterMap_cons, hn, ho]

/-- Shape of the repo batch loop: the completion line is printed exactly
when no unit raised; on success every valid unit was processed; on a raise
the processed units are an initial segment of the valid units. -/
theorem sum_repo_driver_props (cfg : Config) (codec : Codec)
    (data : String → String → UnitData) (context_only : Bool) :
    ∀ (repos : List RepoEntry) (fs : FS),
    ((sum_repo_driver cfg codec data context_only repos fs).done = true ↔
      (sum_repo_driver cfg codec data context_only repos fs).res = .ok ()) ∧
    ((sum_repo_driver cfg codec data context_only repos fs).res = .ok () →
      (sum_repo_driver cfg codec data context_only repos fs).processed =
        valid_units repos) ∧
    (∀ e, (sum_repo_driver cfg codec data context_only repos fs).res = .error e →
      (sum_repo_driver cfg codec data context_only repos fs).done = false ∧
      ∃ rest, valid_units repos =
        (sum_repo_driver cfg codec data context_only repos fs).processed ++ rest) := by
  intro repos
  induction repos with
  | nil =>
    intro fs
    refine ⟨by simp [sum_repo_driver], fun _ => by simp [sum_repo_driver, valid_units], ?_⟩
    intro e he
    simp [sum_repo_driver] at he
  | cons e0 rest ih =>
    intro fs
    cases hn : e0.name with
    | none =>
      simp only [sum_repo_driver, hn, valid_units_cons_no_name hn rest]
      exact ih fs
    | some n =>
      cases ho : e0.org with
      | none =>
        simp only [sum_repo_driver, hn, ho, valid_units_cons_no_org hn ho rest]
        exact ih fs
      | some o =>
        simp only [sum_repo_driver, hn, ho, valid_units_cons_valid hn ho rest]
        cases hres : (summarize_repo n o (data n o).present (data n o).commit_count
            (data n o).short_hash cfg codec (data n o).prods (!context_only)
            context_only fs).res with
        | error err =>
          simp only [hres]
          refine ⟨by simp, fun h => by simp at h, fun e he => ?_⟩
          exact ⟨by simp, valid_units rest, rfl⟩
        | ok u =>
          cases u
          simp only [hres]
          rcases ih (summarize_repo n o (data n o).present (data n o).commit_count
              (data n o).short_hash cfg codec (data n o).prods (!context_only)
              context_only fs).fs with ⟨ih1, ih2, ih3⟩
          refine ⟨ih1, fun h => by rw [ih2 h], fun e he => ?_⟩
          rcases ih3 e he with ⟨hdone, rest2, hrest⟩
          exact ⟨hdone, rest2, by rw [hrest, List.cons_append]⟩

/-- The valid PR numbers of a configured PR list, in order. -/
def valid_prs (prs : List (Option Nat)) : List Nat :=
  prs.filterMap id

/-- Shape of the PR batch loop, identical to the repo loop. -/
theorem sum_pr_driver_props (repo_name : String) (data : Nat → PrUnitData)
    (context_only : Bool) :
    ∀ (prs : List (Option Nat)) (fs : FS),
    ((sum_pr_driver repo_name data context_only prs fs).done = true ↔
      (sum_pr_driver repo_name data context_only prs fs).res = .ok ()) ∧
    ((sum_pr_driver repo_name data context_only prs fs).res = .ok () →
      (sum_pr_driver repo_name data context_only prs fs).processed = valid_prs prs) ∧
    (∀ e, (sum_pr_driver repo_name data context_only prs fs).res = .error e →
      (sum_pr_driver repo_name data context_only prs fs).done = false ∧
      ∃ rest, valid_prs prs =
        (sum_pr_driver repo_name data context_only prs fs).processed ++ rest) := by
  intro prs
  induction prs with
  | nil =>
    intro fs
    refine ⟨by simp [sum_pr_driver], fun _ => by simp [sum_pr_driver, valid_prs], ?_⟩
    intro e he
    simp [sum_pr_driver] at he
  | cons p0 rest ih =>
    intro fs
    cases p0 with
    | none =>
      simp only [sum_pr_driver]
      have hv : valid_prs (none :: rest) = valid_prs rest := by
        simp [valid_prs, List.filterMap_cons]
      rw [hv]
      exact ih fs
    | some pr =>
      simp only [sum_pr_driver]
      have hv : valid_prs (some pr :: rest) = pr :: valid_prs rest := by
        simp [valid_prs, List.filterMap_cons]
      rw [hv]
      cases hres : (summarize_pr repo_name pr (data pr).present (data pr).collectCtx
          (if context_only then none else some (data pr).llmReply)
          context_only fs).res with
      | error err =>
        simp only [hres]
        refine ⟨by simp, fun h => by simp at h, fun e he => ?_⟩
        exact ⟨by simp, valid_prs rest, rfl⟩
      | ok u =>
        cases u
        simp only [hres]
        rcases ih (summarize_pr repo_name pr (data pr).present (data pr).collectCtx
            (if context_only then none else some (data pr).llmReply)
            context_only fs).fs with ⟨ih1, ih2, ih3⟩
        refine ⟨ih1, fun h => by rw [ih2 h], fun e he => ?_⟩
        rcases ih3 e he with ⟨hdone, rest2, hrest⟩
        exact ⟨hdone, rest2, by rw [hrest, List.cons_append]⟩

/-! ## No-overwrite lemmas for the pipelines -/

theorem phase1_collect_context_sub (fs : FS) (od : FPath) (cfg : Config)
    (fargs : List (String × String)) (col : Except Err String) :
    FS.Sub fs (phase1_collect_context fs od cfg fargs col).fs := by
  unfold phase1_collect_context
  exact cfc_sub _ _ _ _ _ _ _ _

theorem phase1_categorize_files_sub (fs : FS) (od : FPath) (cfg : Config)
    (fargs : List (String × String)) (codec : Codec) (llm : Except Err String) :
    FS.Sub fs (phase1_categorize_files fs od cfg fargs codec llm).fs := by
  unfold phase1_categorize_files
  exact cfcp_sub _ _ _ _ _ _ _ _ _

theorem phase2_collect_structure_context_sub (fs : FS) (od : FPath) (cfg : Config)
    (fargs : List (String × String)) (col : Except Err String) :
    FS.Sub fs (phase2_collect_structure_context fs od cfg fargs col).fs := by
  unfold phase2_collect_structure_context
  exact cfc_sub _ _ _ _ _ _ _ _

theorem phase2_summarize_structure_sub (fs : FS) (od : FPath) (cfg : Config)
    (fargs : List (String × String)) (llm : Except Err String) :
    FS.Sub fs (phase2_summarize_structure fs od cfg fargs llm).fs := by
  unfold phase2_summarize_structure
  exact cfc_sub _ _ _ _ _ _ _ _

theorem phase3_analyze_category_sub (fs : FS) (od : FPath) (cfg : Config)
    (fargs : List (String × String)) (c : String) (llm : Except Err String) :
    FS.Sub fs (phase3_analyze_category fs od cfg fargs c llm).fs := by
  unfold phase3_analyze_category
  exact cfc_sub _ _ _ _ _ _ _ _

theorem combine_output_sub (fs : FS) (od : FPath) (cfg : Config)
    (fargs : List (String × String)) (rn : String) (cc : Nat) (sh : String)
    (ssum : String) (sums : List (String × String)) :
    FS.Sub fs (combine_output fs od cfg fargs rn cc sh ssum sums).fs := by
  unfold combine_output
  exact cfc_sub _ _ _ _ _ _ _ _

theorem phase3_collect_category_context_sub {fs : FS} {od : FPath} {cfg : Config}
    {fargs : List (String × String)} {d : Cat} {c : String}
    {col : Except Err String} {o : CFCOut String}
    (h : phase3_collect_category_context fs od cfg fargs d c col = some o) :
    FS.Sub fs o.fs := by
  unfold phase3_collect_category_context at h
  by_cases he : (catGet d c).isEmpty
  · rw [if_pos he] at h; cases h
  · rw [if_neg he] at h
    injection h with h
    rw [← h]
    exact cfc_sub fs od cfg (c ++ "_context") _ _ _ fargs

theorem phase3_loop_sub (output_dir : FPath) (cfg : Config)
    (format_args : List (String × String)) (prods : Producers) (d : Cat) :
    ∀ (cats : List String) (st : P3State),
    FS.Sub st.fs (phase3_loop output_dir cfg format_args prods d cats st).st.fs := by
  intro cats
  induction cats with
  | nil => intro st; exact FS.Sub.rfl st.fs
  | cons c rest ih =>
    intro st
    simp only [phase3_loop]
    split
    · exact ih st
    · rename_i o3a heq
      have ho3a : FS.Sub st.fs o3a.fs := phase3_collect_category_context_sub heq
      split
      · exact ho3a
      · refine FS.Sub.trans ho3a ?_
        exact ih ⟨o3a.fs, st.calls + natOf o3a.called,
          st.trace ++ [(c ++ "_context", o3a.oc)], st.sums⟩
      · split
        · exact FS.Sub.trans ho3a (phase3_analyze_category_sub _ _ _ _ _ _)
        · refine FS.Sub.trans ho3a
            (FS.Sub.trans (phase3_analyze_category_sub o3a.fs output_dir cfg
              format_args c (prods.llmCategory c)) ?_)
          exact ih ⟨(phase3_analyze_category o3a.fs output_dir cfg format_args c
              (prods.llmCategory c)).fs,
            st.calls + natOf o3a.called +
              natOf (phase3_analyze_category o3a.fs output_dir cfg format_args c
                (prods.llmCategory c)).called,
            st.trace ++ [(c ++ "_context", o3a.oc)] ++
              [(c ++ "_result", (phase3_analyze_category o3a.fs output_dir cfg
                format_args c (prods.llmCategory c)).oc)], st.sums⟩
        · rename_i sres heq2
          refine FS.Sub.trans ho3a
            (FS.Sub.trans (phase3_analyze_category_sub o3a.fs output_dir cfg
              format_args c (prods.llmCategory c)) ?_)
          exact ih ⟨(phase3_analyze_category o3a.fs output_dir cfg format_args c
              (prods.llmCategory c)).fs,
            st.calls + natOf o3a.called +
              natOf (phase3_analyze_category o3a.fs output_dir cfg format_args c
                (prods.llmCategory c)).called,
            st.trace ++ [(c ++ "_context", o3a.oc)] ++
              [(c ++ "_result", (phase3_analyze_category o3a.fs output_dir cfg
                format_args c (prods.llmCategory c)).oc)],
            st.sums ++ [(c, sres)]⟩

theorem phase3_loop_sub2 (output_dir : FPath) (cfg : Config)
    (format_args : List (String × String)) (prods : Producers) (d : Cat)
    (cats : List String) (st : P3State) (fs0 : FS) (h : st.fs = fs0) :
    FS.Sub fs0 (phase3_loop output_dir cfg format_args prods d cats st).st.fs :=
  h ▸ phase3_loop_sub output_dir cfg format_args prods d cats st

theorem summarize_repo_sub (rn org : String) (p : Bool) (cc : Nat) (sh : String)
    (cfg : Config) (codec : Codec) (prods : Producers) (lp co : Bool) (fs : FS) :
    FS.Sub fs (summarize_repo rn org p cc sh cfg codec prods lp co fs).fs := by
  cases p with
  | false => exact FS.Sub.rfl fs
  | true =>
    simp only [summarize_repo, Bool.not_true, Bool.false_eq_true, if_false]
    cases hr1 : (phase1_collect_context fs (repo_output_dir org rn) cfg
        (repo_format_args cc sh) prods.collectCat).ret with
    | error e => exact phase1_collect_context_sub _ _ _ _ _
    | ok r1 =>
      cases r1 with
      | none => exact phase1_collect_context_sub _ _ _ _ _
      | some v =>
        cases co with
        | true => exact phase1_collect_context_sub _ _ _ _ _
        | false =>
          cases lp with
          | false => exact phase1_collect_context_sub _ _ _ _ _
          | true =>
            cases hr2 : (phase1_categorize_files (phase1_collect_context fs
                (repo_output_dir org rn) cfg (repo_format_args cc sh)
                prods.collectCat).fs (repo_output_dir org rn) cfg
                (repo_format_args cc sh) codec prods.llmCatReply).ret with
            | error e =>
              exact FS.Sub.trans (phase1_collect_context_sub _ _ _ _ _)
                (phase1_categorize_files_sub _ _ _ _ _ _)
            | ok r2 =>
              cases r2 with
              | none =>
                exact FS.Sub.trans (phase1_collect_context_sub _ _ _ _ _)
                  (phase1_categorize_files_sub _ _ _ _ _ _)
              | some d =>
                cases hr3 : (phase2_collect_structure_context
                    (phase1_categorize_files (phase1_collect_context fs
                      (repo_output_dir org rn) cfg (repo_format_args cc sh)
                      prods.collectCat).fs (repo_output_dir org rn) cfg
                      (repo_format_args cc sh) codec prods.llmCatReply).fs
                    (repo_output_dir org rn) cfg (repo_format_args cc sh)
                    prods.collectStruct).ret with
                | error e =>
                  exact FS.Sub.trans
                    (FS.Sub.trans (phase1_collect_context_sub _ _ _ _ _)
                      (phase1_categorize_files_sub _ _ _ _ _ _))
                    (phase2_collect_structure_context_sub _ _ _ _ _)
                | ok r3 =>
                  cases r3 with
                  | none =>
                    exact FS.Sub.trans
                      (FS.Sub.trans (phase1_collect_context_sub _ _ _ _ _)
                        (phase1_categorize_files_sub _ _ _ _ _ _))
                      (phase2_collect_structure_context_sub _ _ _ _ _)
                  | some w =>
                    cases hr4 : (phase2_summarize_structure
                        (phase2_collect_structure_context (phase1_categorize_files
                          (phase1_collect_context fs (repo_output_dir org rn) cfg
                            (repo_format_args cc sh) prods.collectCat).fs
                          (repo_output_dir org rn) cfg (repo_format_args cc sh)
                          codec prods.llmCatReply).fs (repo_output_dir org rn) cfg
                          (repo_format_args cc sh) prods.collectStruct).fs
                        (repo_output_dir org rn) cfg (repo_format_args cc sh)
                        prods.llmStruct).ret with
                    | error e =>
                      exact FS.Sub.trans
                        (FS.Sub.trans
                          (FS.Sub.trans (phase1_collect_context_sub _ _ _ _ _)
                            (phase1_categorize_files_sub _ _ _ _ _ _))
                          (phase2_collect_structure_context_sub _ _ _ _ _))
                        (phase2_summarize_structure_sub _ _ _ _ _)
                    | ok r4 =>
                      cases r4 with
                      | none =>
                        exact FS.Sub.trans
                          (FS.Sub.trans
                            (FS.Sub.trans (phase1_collect_context_sub _ _ _ _ _)
                              (phase1_categorize_files_sub _ _ _ _ _ _))
                            (phase2_collect_structure_context_sub _ _ _ _ _))
                          (phase2_summarize_structure_sub _ _ _ _ _)
                      | some ssum =>
                        have s4 : FS.Sub fs (phase2_summarize_structure
                            (phase2_collect_structure_context
                              (phase1_categorize_files (phase1_collect_context fs
                                (repo_output_dir org rn) cfg (repo_format_args cc sh)
                                prods.collectCat).fs (repo_output_dir org rn) cfg
                                (repo_format_args cc sh) codec prods.llmCatReply).fs
                              (repo_output_dir org rn) cfg (repo_format_args cc sh)
                              prods.collectStruct).fs (repo_output_dir org rn) cfg
                            (repo_format_args cc sh) prods.llmStruct).fs :=
                          FS.Sub.trans
                            (FS.Sub.trans
                              (FS.Sub.trans (phase1_collect_context_sub _ _ _ _ _)
                                (phase1_categorize_files_sub _ _ _ _ _ _))
                              (phase2_collect_structure_context_sub _ _ _ _ _))
                            (phase2_summarize_structure_sub _ _ _ _ _)
                        simp only [Bool.not_true, Bool.false_eq_true, if_false]
                        split
                        · exact FS.Sub.trans s4
                            (phase3_loop_sub2 _ _ _ _ _ _ _ _ rfl)
                        · split
                          · exact FS.Sub.trans
                              (FS.Sub.trans s4 (phase3_loop_sub2 _ _ _ _ _ _ _ _ rfl))
                              (combine_output_sub _ _ _ _ _ _ _ _ _)
                          · exact FS.Sub.trans
                              (FS.Sub.trans s4 (phase3_loop_sub2 _ _ _ _ _ _ _ _ rfl))
                              (combine_output_sub _ _ _ _ _ _ _ _ _)

theorem pr_paths_ne (rn : String) (pr : Nat) :
    pr_output_file rn pr ≠ pr_context_file rn pr := by
  intro h
  have := congrArg List.length h
  simp [pr_output_file, pr_context_file, pr_dir] at this

theorem summarize_pr_sub (rn : String) (pr : Nat) (pp : Bool)
    (cctx : Except Err String) (llm : Option (Except Err String)) (co : Bool)
    (fs : FS) :
    FS.Sub fs (summarize_pr rn pr pp cctx llm co fs).fs := by
  cases pp with
  | false => exact FS.Sub.rfl fs
  | true =>
    simp only [summarize_pr, Bool.not_true, Bool.false_eq_true, if_false]
    cases hskip : (!co && fs.existsb (pr_output_file rn pr)) with
    | true => exact FS.Sub.rfl fs
    | false =>
      cases hctx : fs.find (pr_context_file rn pr) with
      | some c =>
        cases co with
        | true => exact FS.Sub.rfl fs
        | false =>
          have hex : fs.existsb (pr_output_file rn pr) = false := by
            simpa using hskip
          have hfind : fs.find (pr_output_file rn pr) = none := by
            unfold FS.existsb at hex
            cases hf : fs.find (pr_output_file rn pr) with
            | none => rfl
            | some c2 => rw [hf] at hex; simp at hex
          cases llm with
          | none => exact FS.Sub.rfl fs
          | some r =>
            cases r with
            | error e => exact FS.Sub.rfl fs
            | ok summary => exact FS.sub_write fs summary hfind
      | none =>
        cases cctx with
        | error e => exact FS.Sub.rfl fs
        | ok c =>
          cases co with
          | true => exact FS.sub_write fs c hctx
          | false =>
            have hex : fs.existsb (pr_output_file rn pr) = false := by
              simpa using hskip
            have hfind : fs.find (pr_output_file rn pr) = none := by
              unfold FS.existsb at hex
              cases hf : fs.find (pr_output_file rn pr) with
              | none => rfl
              | some c2 => rw [hf] at hex; simp at hex
            cases llm with
            | none => exact FS.sub_write fs c hctx
            | some r =>
              cases r with
              | error e => exact FS.sub_write fs c hctx
              | ok summary =>
                refine FS.Sub.trans (FS.sub_write fs c hctx)
                  (FS.sub_write _ summary ?_)
                rw [FS.find_write_ne _ _ (pr_paths_ne rn pr)]
                exact hfind

/-! ## Replay lemmas: a second run over a grown filesystem hits the cache -/

theorem map_some_ne_ok_none (x : Except Err String) :
    Except.map some x ≠ .ok none := by
  cases x <;> simp [Except.map]

theorem map_mk_some_ne_ok_none (x : Except Err String) (g : String → String) :
    Except.map (fun r => some (g r)) x ≠ .ok none := by
  cases x <;> simp [Except.map]

section Replay

variable {fs F : FS} {od : FPath} {cfg : Config} {key : String}
  {task : Except Err (Option String)} {dflt : String} {bks : List String}
  {fargs : List (String × String)}

/-- A stage that returned `None` from a `map some` task can only have
skipped: the filesystem is untouched and the producer did not run. -/
theorem cfc_none_of_mapsome {x : Except Err String}
    (hx : task = Except.map some x)
    (h : (cache_file_check fs od cfg key task dflt bks fargs).ret = .ok none) :
    cache_file_check fs od cfg key task dflt bks fargs = ⟨.ok none, fs, false⟩ := by
  cases hres : resolve_filename cfg key dflt fargs with
  | none => rw [cfc_resolve_none hres] at h; cases h
  | some fn =>
    cases hfind : fs.find (od ++ [fn]) with
    | some c => rw [cfc_cached hres hfind] at h; cases h
    | none =>
      cases hscan : bypass_scan fs od cfg fargs bks with
      | error e => rw [cfc_scan_error hres hfind hscan] at h; cases h
      | ok b =>
        cases b with
        | true => exact cfc_skip hres hfind hscan
        | false =>
          rw [cfc_compute hres hfind hscan] at h ⊢
          cases hx2 : x with
          | error e => rw [hx, hx2] at h; cases h
          | ok r => rw [hx, hx2] at h; cases h

/-- Same for the parsed variant (a `None` task result would have raised a
`TypeError`, not returned `None`). -/
theorem cfcp_none {α : Type} {parser : String → Except Err α}
    (h : (cache_file_check_parsed α fs od cfg key task dflt bks parser
      fargs).ret = .ok none) :
    cache_file_check_parsed α fs od cfg key task dflt bks parser fargs =
      ⟨.ok none, fs, false⟩ := by
  cases hres : resolve_filename cfg key dflt fargs with
  | none => rw [cfcp_resolve_none hres] at h; cases h
  | some fn =>
    cases hfind : fs.find (od ++ [fn]) with
    | some c =>
      rw [cfcp_cached hres hfind] at h
      cases hp : parser c with
      | ok v => rw [hp] at h; cases h
      | error e => rw [hp] at h; cases h
    | none =>
      cases hscan : bypass_scan fs od cfg fargs bks with
      | error e => rw [cfcp_scan_error hres hfind hscan] at h; cases h
      | ok b =>
        cases b with
        | true => exact cfcp_skip hres hfind hscan
        | false =>
          cases htask : task with
          | error e => rw [cfcp_compute_error hres hfind hscan htask] at h; cases h
          | ok r =>
            cases r with
            | none => rw [cfcp_compute_none hres hfind hscan htask] at h; cases h
            | some sv =>
              cases hp : parser sv with
              | ok v =>
                rw [cfcp_compute_some hres hfind hscan htask hp] at h; cases h
              | error e =>
                rw [cfcp_compute_some_perr hres hfind hscan htask hp] at h
                cases h

/-- A stage that produced a value in run 1 is `Cached` in any later run
whose filesystem contains run 1's output files; the producer of the later
run (an arbitrary `task2`) is not consulted. -/
theorem cfc_replay {v : String} (task2 : Except Err (Option String))
    (h : (cache_file_check fs od cfg key task dflt bks fargs).ret = .ok (some v))
    (hsub : FS.Sub (cache_file_check fs od cfg key task dflt bks fargs).fs F) :
    ∃ v2, cache_file_check F od cfg key task2 dflt bks fargs =
      ⟨.ok (some v2), F, false⟩ := by
  cases hres : resolve_filename cfg key dflt fargs with
  | none => rw [cfc_resolve_none hres] at h; cases h
  | some fn =>
    cases hfind : fs.find (od ++ [fn]) with
    | some c =>
      rw [cfc_cached hres hfind] at hsub
      exact ⟨c, cfc_cached hres (hsub _ _ hfind)⟩
    | none =>
      cases hscan : bypass_scan fs od cfg fargs bks with
      | error e => rw [cfc_scan_error hres hfind hscan] at h; cases h
      | ok b =>
        cases b with
        | true => rw [cfc_skip hres hfind hscan] at h; cases h
        | false =>
          rw [cfc_compute hres hfind hscan] at h hsub
          cases htask : task with
          | error e => rw [htask] at h; cases h
          | ok r =>
            cases r with
            | none => rw [htask] at h; cases h
            | some sv =>
              rw [htask] at hsub
              have hFown : F.find (od ++ [fn]) = some sv :=
                hsub _ _ (FS.find_write_self fs (od ++ [fn]) sv)
              exact ⟨sv, cfc_cached hres hFown⟩

/-- Parsed variant of `cfc_replay`: the later run is `Cached` with the
*same* decoded value as run 1. -/
theorem cfcp_replay {α : Type} {parser : String → Except Err α} {d : α}
    (task2 : Except Err (Option String))
    (h : (cache_file_check_parsed α fs od cfg key task dflt bks parser
      fargs).ret = .ok (some d))
    (hsub : FS.Sub (cache_file_check_parsed α fs od cfg key task dflt bks parser
      fargs).fs F) :
    cache_file_check_parsed α F od cfg key task2 dflt bks parser fargs =
      ⟨.ok (some d), F, false⟩ := by
  cases hres : resolve_filename cfg key dflt fargs with
  | none => rw [cfcp_resolve_none hres] at h; cases h
  | some fn =>
    cases hfind : fs.find (od ++ [fn]) with
    | some c =>
      rw [cfcp_cached hres hfind] at h hsub
      cases hp : parser c with
      | ok v =>
        rw [hp] at h hsub
        injection h with h2
        injection h2 with h3
        rw [cfcp_cached hres (hsub _ _ hfind), hp, h3]
      | error e => rw [hp] at h; cases h
    | none =>
      cases hscan : bypass_scan fs od cfg fargs bks with
      | error e => rw [cfcp_scan_error hres hfind hscan] at h; cases h
      | ok b =>
        cases b with
        | true => rw [cfcp_skip hres hfind hscan] at h; cases h
        | false =>
          cases htask : task with
          | error e => rw [cfcp_compute_error hres hfind hscan htask] at h; cases h
          | ok r =>
            cases r with
            | none => rw [cfcp_compute_none hres hfind hscan htask] at h; cases h
            | some sv =>
              cases hp : parser sv with
              | ok v =>
                rw [cfcp_compute_some hres hfind hscan htask hp] at h hsub
                injection h with h2
                injection h2 with h3
                have hFown : F.find (od ++ [fn]) = some sv :=
                  hsub _ _ (FS.find_write_self fs (od ++ [fn]) sv)
                rw [cfcp_cached hres hFown, hp, h3]
              | error e =>
                rw [cfcp_compute_some_perr hres hfind hscan htask hp] at h
                cases h

/-- Bypass hits are monotone in the filesystem. -/
theorem bypass_scan_mono (hsub : FS.Sub fs F) : ∀ {keys : List String},
    bypass_scan fs od cfg fargs keys = .ok true →
    bypass_scan F od cfg fargs keys = .ok true := by
  intro keys
  induction keys with
  | nil => intro h; simp [bypass_scan] at h
  | cons k ks ih =>
    intro h
    simp only [bypass_scan] at h ⊢
    cases hl : lookupStr k cfg with
    | none =>
      simp only [hl] at h ⊢
      exact ih h
    | some f =>
      simp only [hl] at h ⊢
      cases hm : maybeFormat f fargs with
      | none => simp only [hm] at h; cases h
      | some f2 =>
        simp only [hm] at h ⊢
        by_cases hx : fs.existsb (od ++ [f2]) = true
        · rw [if_pos (hsub.existsb _ hx)]
        · simp only [Bool.not_eq_true] at hx
          simp only [hx, Bool.false_eq_true, if_false] at h
          by_cases hy : F.existsb (od ++ [f2]) = true
          · rw [if_pos hy]
          · simp only [Bool.not_eq_true] at hy
            simp only [hy, Bool.false_eq_true, if_false]
            exact ih h

/-- Head analysis of a successful bypass scan: either the first key names
an existing file, or the tail already hits. -/
theorem bypass_scan_cons_true {k : String} {ks : List String}
    (h : bypass_scan fs od cfg fargs (k :: ks) = .ok true) :
    (∃ f f2, lookupStr k cfg = some f ∧ maybeFormat f fargs = some f2 ∧
      fs.existsb (od ++ [f2]) = true) ∨
    bypass_scan fs od cfg fargs ks = .ok true := by
  simp only [bypass_scan] at h
  cases hl : lookupStr k cfg with
  | none => simp only [hl] at h; exact Or.inr h
  | some f =>
    simp only [hl] at h
    cases hm : maybeFormat f fargs with
    | none => simp only [hm] at h; cases h
    | some f2 =>
      simp only [hm] at h
      by_cases hx : fs.existsb (od ++ [f2]) = true
      · exact Or.inl ⟨f, f2, rfl, hm, hx⟩
      · simp only [Bool.not_eq_true] at hx
        simp only [hx, Bool.false_eq_true, if_false] at h
        exact Or.inr h

/-- A mapped key of a successful scan always has a formattable template. -/
theorem bypass_scan_cons_fmt {k : String} {ks : List String} {f : String}
    (h : bypass_scan fs od cfg fargs (k :: ks) = .ok true)
    (hl : lookupStr k cfg = some f) :
    ∃ f2, maybeFormat f fargs = some f2 := by
  simp only [bypass_scan, hl] at h
  cases hm : maybeFormat f fargs with
  | none => simp only [hm] at h; cases h
  | some f2 => exact ⟨f2, rfl⟩

end Replay

/-- A template with no opening brace formats to itself. -/
theorem fmtAux_no_brace (args : List (String × String)) :
    ∀ l : List Char, '{' ∉ l → fmtAux args l none = some l := by
  intro l
  induction l with
  | nil => intro _; rfl
  | cons c cs ih =>
    intro h
    have hc : ¬ c = '{' := fun hh => h (hh ▸ List.mem_cons_self c cs)
    have hcs : '{' ∉ cs := fun hh => h (List.mem_cons_of_mem c hh)
    simp only [fmtAux, if_neg hc, ih hcs]
    rfl

theorem maybeFormat_no_brace {s : String} (args : List (String × String))
    (h : '{' ∉ s.data) : maybeFormat s args = some s := by
  unfold maybeFormat
  by_cases he : args.isEmpty
  · rw [if_pos he]
  · rw [if_neg he]
    unfold pyFormat
    rw [fmtAux_no_brace args s.data h]
    cases s
    rfl

theorem FS.find_of_existsb {fs : FS} {p : FPath} (h : fs.existsb p = true) :
    ∃ c, fs.find p = some c := by
  unfold FS.existsb at h
  exact Option.isSome_iff_exists.mp h

theorem bypass_keys_3a_eq (c : String) :
    bypass_keys_3a c = (c ++ "_result") :: bypass_keys_3b c := rfl

section ReplayInv

variable {fs F : FS} {od : FPath} {cfg : Config} {key : String}
  {task : Except Err (Option String)} {dflt : String} {bks : List String}
  {fargs : List (String × String)}

/-- Inversion of a `None` return from a `map some` task: the stage resolved
its artifact, found it absent, and hit a bypass file. -/
theorem cfc_skip_inv {x : Except Err String}
    (hx : task = Except.map some x)
    (h : (cache_file_check fs od cfg key task dflt bks fargs).ret = .ok none) :
    ∃ fn, resolve_filename cfg key dflt fargs = some fn ∧
      fs.find (od ++ [fn]) = none ∧
      bypass_scan fs od cfg fargs bks = .ok true := by
  cases hres : resolve_filename cfg key dflt fargs with
  | none => rw [cfc_resolve_none hres] at h; cases h
  | some fn =>
    cases hfind : fs.find (od ++ [fn]) with
    | some c => rw [cfc_cached hres hfind] at h; cases h
    | none =>
      cases hscan : bypass_scan fs od cfg fargs bks with
      | error e => rw [cfc_scan_error hres hfind hscan] at h; cases h
      | ok b =>
        cases b with
        | true => exact ⟨fn, rfl, hfind, rfl⟩
        | false =>
          rw [cfc_compute hres hfind hscan] at h
          cases hx2 : x with
          | error e => rw [hx, hx2] at h; cases h
          | ok r => rw [hx, hx2] at h; cases h

/-- Inversion of a `None` return of the parsed variant. -/
theorem cfcp_skip_inv {α : Type} {parser : String → Except Err α}
    (h : (cache_file_check_parsed α fs od cfg key task dflt bks parser
      fargs).ret = .ok none) :
    ∃ fn, resolve_filename cfg key dflt fargs = some fn ∧
      fs.find (od ++ [fn]) = none ∧
      bypass_scan fs od cfg fargs bks = .ok true := by
  cases hres : resolve_filename cfg key dflt fargs with
  | none => rw [cfcp_resolve_none hres] at h; cases h
  | some fn =>
    cases hfind : fs.find (od ++ [fn]) with
    | some c =>
      rw [cfcp_cached hres hfind] at h
      cases hp : parser c with
      | ok v => rw [hp] at h; cases h
      | error e => rw [hp] at h; cases h
    | none =>
      cases hscan : bypass_scan fs od cfg fargs bks with
      | error e => rw [cfcp_scan_error hres hfind hscan] at h; cases h
      | ok b =>
        cases b with
        | true => exact ⟨fn, rfl, hfind, rfl⟩
        | false =>
          cases htask : task with
          | error e => rw [cfcp_compute_error hres hfind hscan htask] at h; cases h
          | ok r =>
            cases r with
            | none => rw [cfcp_compute_none hres hfind hscan htask] at h; cases h
            | some sv =>
              cases hp : parser sv with
              | ok v =>
                rw [cfcp_compute_some hres hfind hscan htask hp] at h; cases h
              | error e =>
                rw [cfcp_compute_some_perr hres hfind hscan htask hp] at h
                cases h

end ReplayInv

/-- The final combiner never returns `None`: its task always yields a value
and it has no bypass keys. -/
theorem combine_output_ret_ne_none (fs : FS) (od : FPath) (cfg : Config)
    (fargs : List (String × String)) (rn : String) (cc : Nat) (sh : String)
    (ssum : String) (sums : List (String × String)) :
    (combine_output fs od cfg fargs rn cc sh ssum sums).ret ≠ .ok none := by
  unfold combine_output
  cases hres : resolve_filename cfg "output"
      "sum.repo.{commit_count}.{short_hash}.ai.md" fargs with
  | none => rw [cfc_resolve_none hres]; simp
  | some fn =>
    cases hfind : fs.find (od ++ [fn]) with
    | some c => rw [cfc_cached hres hfind]; simp
    | none =>
      rw [cfc_compute hres hfind
        (show bypass_scan fs od cfg fargs [] = Except.ok false from rfl)]
      simp

/-- The phase-3a wrapper is `none` exactly on an empty category. -/
theorem p3cc_empty {fs : FS} {od : FPath} {cfg : Config}
    {fargs : List (String × String)} {d : Cat} {c : String}
    {col : Except Err String} (he : (catGet d c).isEmpty = true) :
    phase3_collect_category_context fs od cfg fargs d c col = none := by
  unfold phase3_collect_category_context
  rw [if_pos he]

theorem p3cc_nonempty {fs : FS} {od : FPath} {cfg : Config}
    {fargs : List (String × String)} {d : Cat} {c : String}
    {col : Except Err String} (he : (catGet d c).isEmpty = false) :
    phase3_collect_category_context fs od cfg fargs d c col =
      some (cache_file_check fs od cfg (c ++ "_context") (Except.map some col)
        ("sum_repo." ++ c ++ ".context.md") (bypass_keys_3a c) fargs) := by
  unfold phase3_collect_category_context
  rw [if_neg (by rw [he]; exact Bool.false_ne_true)]

theorem p3cc_some_inv {fs : FS} {od : FPath} {cfg : Config}
    {fargs : List (String × String)} {d : Cat} {c : String}
    {col : Except Err String} {o : CFCOut String}
    (h : phase3_collect_category_context fs od cfg fargs d c col = some o) :
    (catGet d c).isEmpty = false ∧
      o = cache_file_check fs od cfg (c ++ "_context") (Except.map some col)
        ("sum_repo." ++ c ++ ".context.md") (bypass_keys_3a c) fargs := by
  cases he : (catGet d c).isEmpty with
  | true => rw [p3cc_empty he] at h; cases h
  | false =>
    rw [p3cc_nonempty he] at h
    injection h with h
    exact ⟨rfl, h.symm⟩

/-! ## Stage-level replay wrappers -/

theorem phase1_collect_context_replay {fs F : FS} {od : FPath} {cfg : Config}
    {fargs : List (String × String)} {col : Except Err String} {v : String}
    (col2 : Except Err String)
    (h : (phase1_collect_context fs od cfg fargs col).ret = .ok (some v))
    (hsub : FS.Sub (phase1_collect_context fs od cfg fargs col).fs F) :
    ∃ v2, phase1_collect_context F od cfg fargs col2 =
      ⟨.ok (some v2), F, false⟩ := by
  unfold phase1_collect_context at h hsub ⊢
  exact cfc_replay _ h hsub

theorem phase1_categorize_files_replay {fs F : FS} {od : FPath} {cfg : Config}
    {fargs : List (String × String)} {codec : Codec} {llm : Except Err String}
    {d : Cat} (llm2 : Except Err String)
    (h : (phase1_categorize_files fs od cfg fargs codec llm).ret = .ok (some d))
    (hsub : FS.Sub (phase1_categorize_files fs od cfg fargs codec llm).fs F) :
    phase1_categorize_files F od cfg fargs codec llm2 =
      ⟨.ok (some d), F, false⟩ := by
  unfold phase1_categorize_files at h hsub ⊢
  exact cfcp_replay _ h hsub

theorem phase2_collect_structure_context_replay {fs F : FS} {od : FPath}
    {cfg : Config} {fargs : List (String × String)} {col : Except Err String}
    {v : String} (col2 : Except Err String)
    (h : (phase2_collect_structure_context fs od cfg fargs col).ret = .ok (some v))
    (hsub : FS.Sub (phase2_collect_structure_context fs od cfg fargs col).fs F) :
    ∃ v2, phase2_collect_structure_context F od cfg fargs col2 =
      ⟨.ok (some v2), F, false⟩ := by
  unfold phase2_collect_structure_context at h hsub ⊢
  exact cfc_replay _ h hsub

theorem phase2_summarize_structure_replay {fs F : FS} {od : FPath}
    {cfg : Config} {fargs : List (String × String)} {llm : Except Err String}
    {v : String} (llm2 : Except Err String)
    (h : (phase2_summarize_structure fs od cfg fargs llm).ret = .ok (some v))
    (hsub : FS.Sub (phase2_summarize_structure fs od cfg fargs llm).fs F) :
    ∃ v2, phase2_summarize_structure F od cfg fargs llm2 =
      ⟨.ok (some v2), F, false⟩ := by
  unfold phase2_summarize_structure at h hsub ⊢
  exact cfc_replay _ h hsub

/-- Replaying the phase-3 category loop over a filesystem that contains
run 1's outputs: every category stage of the second run is `Cached` or
`Skipped`, the filesystem is untouched and no producer runs. -/
theorem phase3_loop_replay (od : FPath) (cfg : Config)
    (fargs : List (String × String)) (prods prods2 : Producers) (d : Cat)
    (F : FS) :
    ∀ (cats : List String) (st1 st2 : P3State),
    (∀ c ∈ cats, lookupStr (c ++ "_result") cfg = none →
      '{' ∉ String.data ("sum_repo." ++ c ++ ".md")) →
    (phase3_loop od cfg fargs prods d cats st1).res = .ok () →
    FS.Sub (phase3_loop od cfg fargs prods d cats st1).st.fs F →
    st2.fs = F →
    (phase3_loop od cfg fargs prods2 d cats st2).res = .ok () ∧
    (phase3_loop od cfg fargs prods2 d cats st2).st.fs = F ∧
    (phase3_loop od cfg fargs prods2 d cats st2).st.calls = st2.calls := by
  intro cats
  induction cats with
  | nil =>
    intro st1 st2 _ _ _ hst2
    exact ⟨rfl, hst2, rfl⟩
  | cons c rest ih =>
    intro st1 st2 hnb h1 hsub hst2
    have hnbr : ∀ c2 ∈ rest, lookupStr (c2 ++ "_result") cfg = none →
        '{' ∉ String.data ("sum_repo." ++ c2 ++ ".md") :=
      fun c2 hm => hnb c2 (List.mem_cons_of_mem c hm)
    cases h3a : phase3_collect_category_context st1.fs od cfg fargs d c
        (prods.collectCategory c) with
    | none =>
      have hemp : (catGet d c).isEmpty = true := by
        cases he : (catGet d c).isEmpty with
        | true => rfl
        | false => rw [p3cc_nonempty he] at h3a; cases h3a
      simp only [phase3_loop, h3a] at h1 hsub
      have h3a2 : phase3_collect_category_context st2.fs od cfg fargs d c
          (prods2.collectCategory c) = none := p3cc_empty hemp
      simp only [phase3_loop, h3a2]
      exact ih st1 st2 hnbr h1 hsub hst2
    | some o3a =>
      obtain ⟨hemp, ho3a⟩ := p3cc_some_inv h3a
      simp only [phase3_loop, h3a] at h1 hsub
      simp only [phase3_loop]
      rw [hst2]
      cases hr : o3a.ret with
      | error e => simp [hr] at h1
      | ok ro =>
        cases ro with
        | none =>
          -- run 1 skipped this category: its filesystem is unchanged and a
          -- bypass file for it exists
          have hco : cache_file_check st1.fs od cfg (c ++ "_context")
              (Except.map some (prods.collectCategory c))
              ("sum_repo." ++ c ++ ".context.md") (bypass_keys_3a c) fargs =
              ⟨.ok none, st1.fs, false⟩ :=
            cfc_none_of_mapsome rfl (ho3a ▸ hr)
          obtain ⟨fn, hres, hfind, hscan⟩ := cfc_skip_inv rfl (ho3a ▸ hr)
          have ho3a2 : o3a = ⟨.ok none, st1.fs, false⟩ := ho3a.trans hco
          simp only [hr] at h1 hsub
          have hs1F : FS.Sub st1.fs F := by
            refine FS.Sub.trans ?_ hsub
            refine phase3_loop_sub2 _ _ _ _ _ _ _ _ ?_
            rw [ho3a2]
          have h3a2 : phase3_collect_category_context F od cfg fargs d c
              (prods2.collectCategory c) =
              some (cache_file_check F od cfg (c ++ "_context")
                (Except.map some (prods2.collectCategory c))
                ("sum_repo." ++ c ++ ".context.md") (bypass_keys_3a c) fargs) :=
            p3cc_nonempty hemp
          cases hF : F.find (od ++ [fn]) with
          | none =>
            have hco2 : cache_file_check F od cfg (c ++ "_context")
                (Except.map some (prods2.collectCategory c))
                ("sum_repo." ++ c ++ ".context.md") (bypass_keys_3a c) fargs =
                ⟨.ok none, F, false⟩ :=
              cfc_skip hres hF (bypass_scan_mono hs1F hscan)
            simp only [h3a2, hco2]
            exact ih _ _ hnbr h1 hsub rfl
          | some w =>
            have hco2 : cache_file_check F od cfg (c ++ "_context")
                (Except.map some (prods2.collectCategory c))
                ("sum_repo." ++ c ++ ".context.md") (bypass_keys_3a c) fargs =
                ⟨.ok (some w), F, false⟩ :=
              cfc_cached hres hF
            have hscan3 : bypass_scan st1.fs od cfg fargs
                ((c ++ "_result") :: bypass_keys_3b c) = .ok true := by
              rw [← bypass_keys_3a_eq]; exact hscan
            have hres2 : ∃ fn2, resolve_filename cfg (c ++ "_result")
                ("sum_repo." ++ c ++ ".md") fargs = some fn2 := by
              cases hl : lookupStr (c ++ "_result") cfg with
              | some f =>
                obtain ⟨f2, hf2⟩ := bypass_scan_cons_fmt hscan3 hl
                refine ⟨f2, ?_⟩
                unfold resolve_filename
                rw [hl]
                exact hf2
              | none =>
                refine ⟨"sum_repo." ++ c ++ ".md", ?_⟩
                unfold resolve_filename
                rw [hl]
                exact maybeFormat_no_brace fargs
                  (hnb c (List.mem_cons_self c rest) hl)
            obtain ⟨fn2, hres2⟩ := hres2
            cases hF2 : F.find (od ++ [fn2]) with
            | some w2 =>
              have hco3 : phase3_analyze_category F od cfg fargs c
                  (prods2.llmCategory c) = ⟨.ok (some w2), F, false⟩ := by
                unfold phase3_analyze_category
                exact cfc_cached hres2 hF2
              simp only [h3a2, hco2, hco3]
              exact ih _ _ hnbr h1 hsub rfl
            | none =>
              rcases bypass_scan_cons_true hscan3 with ⟨f, f2, hlf, hmf, hex⟩ | htail
              · -- the bypass hit was the result file itself: then run 2 finds
                -- it in F, contradicting this branch
                have hfn2 : fn2 = f2 := by
                  unfold resolve_filename at hres2
                  rw [hlf] at hres2
                  simp only [Option.getD_some] at hres2
                  rw [hmf] at hres2
                  exact (Option.some_inj.mp hres2).symm
                have hexF : F.existsb (od ++ [f2]) = true := hs1F.existsb _ hex
                obtain ⟨cc2, hcc⟩ := FS.find_of_existsb hexF
                rw [hfn2, hcc] at hF2
                cases hF2
              · have hco3 : phase3_analyze_category F od cfg fargs c
                    (prods2.llmCategory c) = ⟨.ok none, F, false⟩ := by
                  unfold phase3_analyze_category
                  exact cfc_skip hres2 hF2 (bypass_scan_mono hs1F htail)
                simp only [h3a2, hco2, hco3]
                exact ih _ _ hnbr h1 hsub rfl
        | some ctx =>
          -- run 1 produced a context value and ran the analyze stage
          simp only [hr] at h1 hsub
          have h3a2 : phase3_collect_category_context F od cfg fargs d c
              (prods2.collectCategory c) =
              some (cache_file_check F od cfg (c ++ "_context")
                (Except.map some (prods2.collectCategory c))
                ("sum_repo." ++ c ++ ".context.md") (bypass_keys_3a c) fargs) :=
            p3cc_nonempty hemp
          cases hr2 : (phase3_analyze_category o3a.fs od cfg fargs c
              (prods.llmCategory c)).ret with
          | error e => simp [hr2] at h1
          | ok ro2 =>
            cases ro2 with
            | none =>
              -- run 1's analyze stage skipped
              obtain ⟨fn2, hres2, hfind2, hscan2⟩ := cfc_skip_inv rfl hr2
              have hco1b : phase3_analyze_category o3a.fs od cfg fargs c
                  (prods.llmCategory c) = ⟨.ok none, o3a.fs, false⟩ :=
                cfc_none_of_mapsome rfl hr2
              simp only [hr2] at h1 hsub
              simp only [hco1b] at h1 hsub
              have hsO : FS.Sub o3a.fs F := by
                refine FS.Sub.trans ?_ hsub
                exact phase3_loop_sub2 _ _ _ _ _ _ _ _ rfl
              have hrep1 : ∃ v2, cache_file_check F od cfg (c ++ "_context")
                  (Except.map some (prods2.collectCategory c))
                  ("sum_repo." ++ c ++ ".context.md") (bypass_keys_3a c) fargs =
                  ⟨.ok (some v2), F, false⟩ := by
                refine @cfc_replay st1.fs F od cfg (c ++ "_context")
                  (Except.map some (prods.collectCategory c))
                  ("sum_repo." ++ c ++ ".context.md") (bypass_keys_3a c) fargs
                  ctx (Except.map some (prods2.collectCategory c)) ?_ ?_
                · rw [← ho3a]; exact hr
                · rw [← ho3a]; exact hsO
              obtain ⟨v2, hrep1⟩ := hrep1
              cases hF2 : F.find (od ++ [fn2]) with
              | some w2 =>
                have hco3 : phase3_analyze_category F od cfg fargs c
                    (prods2.llmCategory c) = ⟨.ok (some w2), F, false⟩ := by
                  unfold phase3_analyze_category
                  exact cfc_cached hres2 hF2
                simp only [h3a2, hrep1, hco3]
                exact ih _ _ hnbr h1 hsub rfl
              | none =>
                have hco3 : phase3_analyze_category F od cfg fargs c
                    (prods2.llmCategory c) = ⟨.ok none, F, false⟩ := by
                  unfold phase3_analyze_category
                  exact cfc_skip hres2 hF2 (bypass_scan_mono hsO hscan2)
                simp only [h3a2, hrep1, hco3]
                exact ih _ _ hnbr h1 hsub rfl
            | some s =>
              -- run 1's analyze stage produced a value: replay both stages
              simp only [hr2] at h1 hsub
              have hsO3b : FS.Sub (phase3_analyze_category o3a.fs od cfg fargs c
                  (prods.llmCategory c)).fs F := by
                refine FS.Sub.trans ?_ hsub
                exact phase3_loop_sub2 _ _ _ _ _ _ _ _ rfl
              have hsO : FS.Sub o3a.fs F :=
                FS.Sub.trans (phase3_analyze_category_sub o3a.fs od cfg fargs c
                  (prods.llmCategory c)) hsO3b
              have hrep1 : ∃ v2, cache_file_check F od cfg (c ++ "_context")
                  (Except.map some (prods2.collectCategory c))
                  ("sum_repo." ++ c ++ ".context.md") (bypass_keys_3a c) fargs =
                  ⟨.ok (some v2), F, false⟩ := by
                refine @cfc_replay st1.fs F od cfg (c ++ "_context")
                  (Except.map some (prods.collectCategory c))
                  ("sum_repo." ++ c ++ ".context.md") (bypass_keys_3a c) fargs
                  ctx (Except.map some (prods2.collectCategory c)) ?_ ?_
                · rw [← ho3a]; exact hr
                · rw [← ho3a]; exact hsO
              obtain ⟨v2, hrep1⟩ := hrep1
              have hrep2 : ∃ w2, cache_file_check F od cfg (c ++ "_result")
                  (Except.map some (prods2.llmCategory c))
                  ("sum_repo." ++ c ++ ".md") (bypass_keys_3b c) fargs =
                  ⟨.ok (some w2), F, false⟩ := by
                refine @cfc_replay o3a.fs F od cfg (c ++ "_result")
                  (Except.map some (prods.llmCategory c))
                  ("sum_repo." ++ c ++ ".md") (bypass_keys_3b c) fargs
                  s (Except.map some (prods2.llmCategory c)) ?_ ?_
                · exact hr2
                · exact hsO3b
              obtain ⟨w2, hrep2⟩ := hrep2
              have hco3 : phase3_analyze_category F od cfg fargs c
                  (prods2.llmCategory c) = ⟨.ok (some w2), F, false⟩ := by
                unfold phase3_analyze_category
                exact hrep2
              simp only [h3a2, hrep1, hco3]
              exact ih _ _ hnbr h1 hsub rfl

/-! ## Shape of a second `summarize_repo` run over a cached filesystem -/

theorem summarize_repo_run2_skip0 (rn org : String) (cc : Nat) (sh : String)
    (cfg : Config) (codec : Codec) (prods : Producers) (F : FS)
    (e1 : phase1_collect_context F (repo_output_dir org rn) cfg
      (repo_format_args cc sh) prods.collectCat = ⟨.ok none, F, false⟩) :
    (summarize_repo rn org true cc sh cfg codec prods true false F).res = .ok () ∧
    (summarize_repo rn org true cc sh cfg codec prods true false F).fs = F ∧
    (summarize_repo rn org true cc sh cfg codec prods true false F).calls = 0 := by
  simp only [summarize_repo, Bool.not_true, Bool.false_eq_true, if_false, e1]
  simp [natOf]

theorem summarize_repo_run2_skip1b (rn org : String) (cc : Nat) (sh : String)
    (cfg : Config) (codec : Codec) (prods : Producers) (F : FS) (v1 : String)
    (e1 : phase1_collect_context F (repo_output_dir org rn) cfg
      (repo_format_args cc sh) prods.collectCat = ⟨.ok (some v1), F, false⟩)
    (e2 : phase1_categorize_files F (repo_output_dir org rn) cfg
      (repo_format_args cc sh) codec prods.llmCatReply = ⟨.ok none, F, false⟩) :
    (summarize_repo rn org true cc sh cfg codec prods true false F).res = .ok () ∧
    (summarize_repo rn org true cc sh cfg codec prods true false F).fs = F ∧
    (summarize_repo rn org true cc sh cfg codec prods true false F).calls = 0 := by
  simp only [summarize_repo, Bool.not_true, Bool.false_eq_true, if_false, e1, e2]
  simp [natOf]

theorem summarize_repo_run2_skip2a (rn org : String) (cc : Nat) (sh : String)
    (cfg : Config) (codec : Codec) (prods : Producers) (F : FS) (v1 : String)
    (d : Cat)
    (e1 : phase1_collect_context F (repo_output_dir org rn) cfg
      (repo_format_args cc sh) prods.collectCat = ⟨.ok (some v1), F, false⟩)
    (e2 : phase1_categorize_files F (repo_output_dir org rn) cfg
      (repo_format_args cc sh) codec prods.llmCatReply = ⟨.ok (some d), F, false⟩)
    (e3 : phase2_collect_structure_context F (repo_output_dir org rn) cfg
      (repo_format_args cc sh) prods.collectStruct = ⟨.ok none, F, false⟩) :
    (summarize_repo rn org true cc sh cfg codec prods true false F).res = .ok () ∧
    (summarize_repo rn org true cc sh cfg codec prods true false F).fs = F ∧
    (summarize_repo rn org true cc sh cfg codec prods true false F).calls = 0 := by
  simp only [summarize_repo, Bool.not_true, Bool.false_eq_true, if_false, e1, e2, e3]
  simp [natOf]

theorem summarize_repo_run2_skip2b (rn org : String) (cc : Nat) (sh : String)
    (cfg : Config) (codec : Codec) (prods : Producers) (F : FS) (v1 v3 : String)
    (d : Cat)
    (e1 : phase1_collect_context F (repo_output_dir org rn) cfg
      (repo_format_args cc sh) prods.collectCat = ⟨.ok (some v1), F, false⟩)
    (e2 : phase1_categorize_files F (repo_output_dir org rn) cfg
      (repo_format_args cc sh) codec prods.llmCatReply = ⟨.ok (some d), F, false⟩)
    (e3 : phase2_collect_structure_context F (repo_output_dir org rn) cfg
      (repo_format_args cc sh) prods.collectStruct = ⟨.ok (some v3), F, false⟩)
    (e4 : phase2_summarize_structure F (repo_output_dir org rn) cfg
      (repo_format_args cc sh) prods.llmStruct = ⟨.ok none, F, false⟩) :
    (summarize_repo rn org true cc sh cfg codec prods true false F).res = .ok () ∧
    (summarize_repo rn org true cc sh cfg codec prods true false F).fs = F ∧
    (summarize_repo rn org true cc sh cfg codec prods true false F).calls = 0 := by
  simp only [summarize_repo, Bool.not_true, Bool.false_eq_true, if_false,
    e1, e2, e3, e4]
  simp [natOf]

theorem summarize_repo_run2_full (rn org : String) (cc : Nat) (sh : String)
    (cfg : Config) (codec : Codec) (prods : Producers) (F : FS) (d : Cat)
    (v1 v3 v4 : String)
    (e1 : phase1_collect_context F (repo_output_dir org rn) cfg
      (repo_format_args cc sh) prods.collectCat = ⟨.ok (some v1), F, false⟩)
    (e2 : phase1_categorize_files F (repo_output_dir org rn) cfg
      (repo_format_args cc sh) codec prods.llmCatReply = ⟨.ok (some d), F, false⟩)
    (e3 : phase2_collect_structure_context F (repo_output_dir org rn) cfg
      (repo_format_args cc sh) prods.collectStruct = ⟨.ok (some v3), F, false⟩)
    (e4 : phase2_summarize_structure F (repo_output_dir org rn) cfg
      (repo_format_args cc sh) prods.llmStruct = ⟨.ok (some v4), F, false⟩)
    (hL : ∀ st2 : P3State, st2.fs = F →
      (phase3_loop (repo_output_dir org rn) cfg (repo_format_args cc sh) prods d
        all_categories st2).res = .ok () ∧
      (phase3_loop (repo_output_dir org rn) cfg (repo_format_args cc sh) prods d
        all_categories st2).st.fs = F ∧
      (phase3_loop (repo_output_dir org rn) cfg (repo_format_args cc sh) prods d
        all_categories st2).st.calls = st2.calls)
    (h5 : ∀ (ss : String) (sums2 : List (String × String)), ∃ v5,
      combine_output F (repo_output_dir org rn) cfg (repo_format_args cc sh)
        rn cc sh ss sums2 = ⟨.ok (some v5), F, false⟩) :
    (summarize_repo rn org true cc sh cfg codec prods true false F).res = .ok () ∧
    (summarize_repo rn org true cc sh cfg codec prods true false F).fs = F ∧
    (summarize_repo rn org true cc sh cfg codec prods true false F).calls = 0 := by
  choose f5 h5e using h5
  have hL1 : ∀ st2 : P3State, st2.fs = F →
      (phase3_loop (repo_output_dir org rn) cfg (repo_format_args cc sh) prods d
        all_categories st2).res = .ok () := fun st2 h => (hL st2 h).1
  have hL2 : ∀ st2 : P3State, st2.fs = F →
      (phase3_loop (repo_output_dir org rn) cfg (repo_format_args cc sh) prods d
        all_categories st2).st.fs = F := fun st2 h => (hL st2 h).2.1
  have hL3 : ∀ st2 : P3State, st2.fs = F →
      (phase3_loop (repo_output_dir org rn) cfg (repo_format_args cc sh) prods d
        all_categories st2).st.calls = st2.calls := fun st2 h => (hL st2 h).2.2
  simp only [summarize_repo, Bool.not_true, Bool.false_eq_true, if_false,
    e1, e2, e3, e4]
  rw [hL1 _ (by rfl)]
  simp only []
  rw [hL2 _ (by rfl)]
  rw [h5e]
  simp only []
  rw [hL3 _ (by rfl)]
  simp [natOf]

/-- A one-point codec for concrete runs: `"E"` decodes to the fallback
categorization and everything serializes to `"E"`. -/
def idemCodec : Codec :=
  ⟨fun s => if s = "E" then some fallbackCat else none, fun _ => "E"⟩

/-- Producers that always succeed, for concrete runs. -/
def idemProds : Producers :=
  ⟨.ok "c1", .ok "reply", .ok "c2", .ok "s2", fun _ => .ok "c3", fun _ => .ok "s3"⟩

/-! ## Claim theorems -/

/-- C5: Idempotence of the repository pipeline.  After one complete
successful run of `summarize_repo` (repository present, LLM provided, not
context-only), running it again on the resulting filesystem with the same
arguments succeeds, performs zero producer invocations, and leaves every
artifact file byte-for-byte unchanged (the filesystem is equal). -/
theorem repo_pipeline_idempotent (rn org : String) (cc : Nat) (sh : String)
    (cfg : Config) (codec : Codec) (prods : Producers) (fs : FS)
    (hok : (summarize_repo rn org true cc sh cfg codec prods true false fs).res
      = .ok ()) :
    (summarize_repo rn org true cc sh cfg codec prods true false
      (summarize_repo rn org true cc sh cfg codec prods true false fs).fs).res
      = .ok () ∧
    (summarize_repo rn org true cc sh cfg codec prods true false
      (summarize_repo rn org true cc sh cfg codec prods true false fs).fs).fs
      = (summarize_repo rn org true cc sh cfg codec prods true false fs).fs ∧
    (summarize_repo rn org true cc sh cfg codec prods true false
      (summarize_repo rn org true cc sh cfg codec prods true false fs).fs).calls
      = 0 := by
  have hok2 := hok
  simp only [summarize_repo, Bool.not_true, Bool.false_eq_true, if_false] at hok2
  obtain ⟨o1a, hT1⟩ : ∃ x, phase1_collect_context fs (repo_output_dir org rn)
      cfg (repo_format_args cc sh) prods.collectCat = x := ⟨_, rfl⟩
  rw [hT1] at hok2
  cases hr1 : o1a.ret with
  | error e => simp [hr1] at hok2
  | ok r1 =>
    cases r1 with
    | none =>
      have hr1w : (phase1_collect_context fs (repo_output_dir org rn) cfg
          (repo_format_args cc sh) prods.collectCat).ret = .ok none := by
        rw [hT1]; exact hr1
      have e1 : phase1_collect_context fs (repo_output_dir org rn) cfg
          (repo_format_args cc sh) prods.collectCat = ⟨.ok none, fs, false⟩ :=
        cfc_none_of_mapsome rfl hr1w
      have hfs1 : (summarize_repo rn org true cc sh cfg codec prods true false
          fs).fs = fs := by
        simp only [summarize_repo, Bool.not_true, Bool.false_eq_true, if_false,
          e1]
      rw [hfs1]
      exact summarize_repo_run2_skip0 rn org cc sh cfg codec prods fs e1
    | some v1 =>
      simp only [hr1, Bool.not_true, Bool.false_eq_true, if_false] at hok2
      obtain ⟨o1b, hT2⟩ : ∃ x, phase1_categorize_files o1a.fs
          (repo_output_dir org rn) cfg (repo_format_args cc sh) codec
          prods.llmCatReply = x := ⟨_, rfl⟩
      rw [hT2] at hok2
      have hr1w : (phase1_collect_context fs (repo_output_dir org rn) cfg
          (repo_format_args cc sh) prods.collectCat).ret = .ok (some v1) := by
        rw [hT1]; exact hr1
      cases hr2 : o1b.ret with
      | error e => simp [hr2] at hok2
      | ok r2 =>
        cases r2 with
        | none =>
          have hr2w : (phase1_categorize_files o1a.fs (repo_output_dir org rn)
              cfg (repo_format_args cc sh) codec prods.llmCatReply).ret =
              .ok none := by rw [hT2]; exact hr2
          have e2 : phase1_categorize_files o1a.fs (repo_output_dir org rn) cfg
              (repo_format_args cc sh) codec prods.llmCatReply =
              ⟨.ok none, o1a.fs, false⟩ := cfcp_none hr2w
          have hsub1 : FS.Sub (phase1_collect_context fs (repo_output_dir org rn)
              cfg (repo_format_args cc sh) prods.collectCat).fs o1a.fs := by
            rw [hT1]; exact FS.Sub.rfl _
          obtain ⟨w1, e1F⟩ := phase1_collect_context_replay prods.collectCat
            hr1w hsub1
          have hfs1 : (summarize_repo rn org true cc sh cfg codec prods true
              false fs).fs = o1a.fs := by
            simp only [summarize_repo, Bool.not_true, Bool.false_eq_true,
              if_false, hT1, hr1, e2]
          rw [hfs1]
          exact summarize_repo_run2_skip1b rn org cc sh cfg codec prods o1a.fs
            w1 e1F e2
        | some d =>
          simp only [hr2, Bool.not_true, Bool.false_eq_true, if_false] at hok2
          obtain ⟨o2a, hT3⟩ : ∃ x, phase2_collect_structure_context o1b.fs
              (repo_output_dir org rn) cfg (repo_format_args cc sh)
              prods.collectStruct = x := ⟨_, rfl⟩
          rw [hT3] at hok2
          have hr2w : (phase1_categorize_files o1a.fs (repo_output_dir org rn)
              cfg (repo_format_args cc sh) codec prods.llmCatReply).ret =
              .ok (some d) := by rw [hT2]; exact hr2
          have s12 : FS.Sub o1a.fs o1b.fs := by
            rw [← hT2]; exact phase1_categorize_files_sub _ _ _ _ _ _
          cases hr3 : o2a.ret with
          | error e => simp [hr3] at hok2
          | ok r3 =>
            cases r3 with
            | none =>
              have hr3w : (phase2_collect_structure_context o1b.fs
                  (repo_output_dir org rn) cfg (repo_format_args cc sh)
                  prods.collectStruct).ret = .ok none := by
                rw [hT3]; exact hr3
              have e3 : phase2_collect_structure_context o1b.fs
                  (repo_output_dir org rn) cfg (repo_format_args cc sh)
                  prods.collectStruct = ⟨.ok none, o1b.fs, false⟩ :=
                cfc_none_of_mapsome rfl hr3w
              have hsub1 : FS.Sub (phase1_collect_context fs
                  (repo_output_dir org rn) cfg (repo_format_args cc sh)
                  prods.collectCat).fs o1b.fs := by
                rw [hT1]; exact s12
              have hsub2 : FS.Sub (phase1_categorize_files o1a.fs
                  (repo_output_dir org rn) cfg (repo_format_args cc sh) codec
                  prods.llmCatReply).fs o1b.fs := by
                rw [hT2]; exact FS.Sub.rfl _
              obtain ⟨w1, e1F⟩ := phase1_collect_context_replay prods.collectCat
                hr1w hsub1
              have e2F := phase1_categorize_files_replay prods.llmCatReply
                hr2w hsub2
              have hfs1 : (summarize_repo rn org true cc sh cfg codec prods true
                  false fs).fs = o1b.fs := by
                simp only [summarize_repo, Bool.not_true, Bool.false_eq_true,
                  if_false, hT1, hr1, hT2, hr2, e3]
              rw [hfs1]
              exact summarize_repo_run2_skip2a rn org cc sh cfg codec prods
                o1b.fs w1 d e1F e2F e3
            | some v3 =>
              simp only [hr3, Bool.not_true, Bool.false_eq_true, if_false] at hok2
              obtain ⟨o2b, hT4⟩ : ∃ x, phase2_summarize_structure o2a.fs
                  (repo_output_dir org rn) cfg (repo_format_args cc sh)
                  prods.llmStruct = x := ⟨_, rfl⟩
              rw [hT4] at hok2
              have hr3w : (phase2_collect_structure_context o1b.fs
                  (repo_output_dir org rn) cfg (repo_format_args cc sh)
                  prods.collectStruct).ret = .ok (some v3) := by
                rw [hT3]; exact hr3
              have s23 : FS.Sub o1b.fs o2a.fs := by
                rw [← hT3]; exact phase2_collect_structure_context_sub _ _ _ _ _
              cases hr4 : o2b.ret with
              | error e => simp [hr4] at hok2
              | ok r4 =>
                cases r4 with
                | none =>
                  have hr4w : (phase2_summarize_structure o2a.fs
                      (repo_output_dir org rn) cfg (repo_format_args cc sh)
                      prods.llmStruct).ret = .ok none := by
                    rw [hT4]; exact hr4
                  have e4 : phase2_summarize_structure o2a.fs
                      (repo_output_dir org rn) cfg (repo_format_args cc sh)
                      prods.llmStruct = ⟨.ok none, o2a.fs, false⟩ :=
                    cfc_none_of_mapsome rfl hr4w
                  have hsub1 : FS.Sub (phase1_collect_context fs
                      (repo_output_dir org rn) cfg (repo_format_args cc sh)
                      prods.collectCat).fs o2a.fs := by
                    rw [hT1]; exact FS.Sub.trans s12 s23
                  have hsub2 : FS.Sub (phase1_categorize_files o1a.fs
                      (repo_output_dir org rn) cfg (repo_format_args cc sh)
                      codec prods.llmCatReply).fs o2a.fs := by
                    rw [hT2]; exact s23
                  have hsub3 : FS.Sub (phase2_collect_structure_context o1b.fs
                      (repo_output_dir org rn) cfg (repo_format_args cc sh)
                      prods.collectStruct).fs o2a.fs := by
                    rw [hT3]; exact FS.Sub.rfl _
                  obtain ⟨w1, e1F⟩ := phase1_collect_context_replay
                    prods.collectCat hr1w hsub1
                  have e2F := phase1_categorize_files_replay prods.llmCatReply
                    hr2w hsub2
                  obtain ⟨w3, e3F⟩ := phase2_collect_structure_context_replay
                    prods.collectStruct hr3w hsub3
                  have hfs1 : (summarize_repo rn org true cc sh cfg codec prods
                      true false fs).fs = o2a.fs := by
                    simp only [summarize_repo, Bool.not_true, Bool.false_eq_true,
                      if_false, hT1, hr1, hT2, hr2, hT3, hr3, e4]
                  rw [hfs1]
                  exact summarize_repo_run2_skip2b rn org cc sh cfg codec prods
                    o2a.fs w1 w3 d e1F e2F e3F e4
                | some ssum =>
                  simp only [hr4, Bool.not_true, Bool.false_eq_true, if_false]
                    at hok2
                  obtain ⟨p3, hP3⟩ : ∃ x, phase3_loop (repo_output_dir org rn)
                      cfg (repo_format_args cc sh) prods d all_categories
                      ⟨o2b.fs, natOf o1a.called + natOf o1b.called +
                        natOf o2a.called + natOf o2b.called,
                        [("categorization_context", o1a.oc)] ++
                        [("categorization_result", o1b.oc)] ++
                        [("structure_context", o2a.oc)] ++
                        [("structure_result", o2b.oc)], []⟩ = x := ⟨_, rfl⟩
                  rw [hP3] at hok2
                  have hr4w : (phase2_summarize_structure o2a.fs
                      (repo_output_dir org rn) cfg (repo_format_args cc sh)
                      prods.llmStruct).ret = .ok (some ssum) := by
                    rw [hT4]; exact hr4
                  have s34 : FS.Sub o2a.fs o2b.fs := by
                    rw [← hT4]; exact phase2_summarize_structure_sub _ _ _ _ _
                  cases hp3 : p3.res with
                  | error e => simp [hp3] at hok2
                  | ok u =>
                    cases u
                    simp only [hp3] at hok2
                    obtain ⟨oc5, hT5⟩ : ∃ x, combine_output p3.st.fs
                        (repo_output_dir org rn) cfg (repo_format_args cc sh)
                        rn cc sh ssum p3.st.sums = x := ⟨_, rfl⟩
                    rw [hT5] at hok2
                    have s4L : FS.Sub o2b.fs p3.st.fs := by
                      rw [← hP3]; exact phase3_loop_sub2 _ _ _ _ _ _ _ _ rfl
                    have s5 : FS.Sub p3.st.fs oc5.fs := by
                      rw [← hT5]; exact combine_output_sub _ _ _ _ _ _ _ _ _
                    cases hr5 : oc5.ret with
                    | error e => simp [hr5] at hok2
                    | ok r5 =>
                      cases r5 with
                      | none =>
                        have hr5w : (combine_output p3.st.fs
                            (repo_output_dir org rn) cfg (repo_format_args cc sh)
                            rn cc sh ssum p3.st.sums).ret = .ok none := by
                          rw [hT5]; exact hr5
                        exact absurd hr5w
                          (combine_output_ret_ne_none _ _ _ _ _ _ _ _ _)
                      | some v5 =>
                        have hr5w : (combine_output p3.st.fs
                            (repo_output_dir org rn) cfg (repo_format_args cc sh)
                            rn cc sh ssum p3.st.sums).ret = .ok (some v5) := by
                          rw [hT5]; exact hr5
                        have hs4 : FS.Sub o2b.fs oc5.fs := FS.Sub.trans s4L s5
                        have hs3 : FS.Sub o2a.fs oc5.fs := FS.Sub.trans s34 hs4
                        have hs2 : FS.Sub o1b.fs oc5.fs := FS.Sub.trans s23 hs3
                        have hs1 : FS.Sub o1a.fs oc5.fs := FS.Sub.trans s12 hs2
                        have hsub1 : FS.Sub (phase1_collect_context fs
                            (repo_output_dir org rn) cfg (repo_format_args cc sh)
                            prods.collectCat).fs oc5.fs := by
                          rw [hT1]; exact hs1
                        have hsub2 : FS.Sub (phase1_categorize_files o1a.fs
                            (repo_output_dir org rn) cfg (repo_format_args cc sh)
                            codec prods.llmCatReply).fs oc5.fs := by
                          rw [hT2]; exact hs2
                        have hsub3 : FS.Sub (phase2_collect_structure_context
                            o1b.fs (repo_output_dir org rn) cfg
                            (repo_format_args cc sh) prods.collectStruct).fs
                            oc5.fs := by
                          rw [hT3]; exact hs3
                        have hsub4 : FS.Sub (phase2_summarize_structure o2a.fs
                            (repo_output_dir org rn) cfg (repo_format_args cc sh)
                            prods.llmStruct).fs oc5.fs := by
                          rw [hT4]; exact hs4
                        obtain ⟨w1, e1F⟩ := phase1_collect_context_replay
                          prods.collectCat hr1w hsub1
                        have e2F := phase1_categorize_files_replay
                          prods.llmCatReply hr2w hsub2
                        obtain ⟨w3, e3F⟩ := phase2_collect_structure_context_replay
                          prods.collectStruct hr3w hsub3
                        obtain ⟨w4, e4F⟩ := phase2_summarize_structure_replay
                          prods.llmStruct hr4w hsub4
                        have hp3w := hP3.symm ▸ hp3
                        have hsubP := hP3.symm ▸ s5
                        have HNB : ∀ c ∈ all_categories,
                            lookupStr (c ++ "_result") cfg = none →
                            '{' ∉ String.data ("sum_repo." ++ c ++ ".md") := by
                          intro c hc _
                          have hc2 : c = "app" ∨ c = "test" ∨ c = "infra" := by
                            simpa [all_categories] using hc
                          rcases hc2 with rfl | rfl | rfl <;> decide
                        have hL : ∀ st2 : P3State, st2.fs = oc5.fs →
                            (phase3_loop (repo_output_dir org rn) cfg
                              (repo_format_args cc sh) prods d all_categories
                              st2).res = .ok () ∧
                            (phase3_loop (repo_output_dir org rn) cfg
                              (repo_format_args cc sh) prods d all_categories
                              st2).st.fs = oc5.fs ∧
                            (phase3_loop (repo_output_dir org rn) cfg
                              (repo_format_args cc sh) prods d all_categories
                              st2).st.calls = st2.calls :=
                          fun st2 h => phase3_loop_replay _ _ _ prods prods _ _
                            all_categories _ st2 HNB hp3w hsubP h
                        have h5sub : FS.Sub (combine_output p3.st.fs
                            (repo_output_dir org rn) cfg (repo_format_args cc sh)
                            rn cc sh ssum p3.st.sums).fs oc5.fs := by
                          rw [hT5]; exact FS.Sub.rfl _
                        have h5 : ∀ (ss : String)
                            (sums2 : List (String × String)), ∃ v5x,
                            combine_output oc5.fs (repo_output_dir org rn) cfg
                              (repo_format_args cc sh) rn cc sh ss sums2 =
                              ⟨.ok (some v5x), oc5.fs, false⟩ := by
                          intro ss sums2
                          exact cfc_replay
                            (Except.ok (some (combine_task rn cc sh ss sums2)))
                            hr5w h5sub
                        have hfs1 : (summarize_repo rn org true cc sh cfg codec
                            prods true false fs).fs = oc5.fs := by
                          simp only [summarize_repo, Bool.not_true,
                            Bool.false_eq_true, if_false, hT1, hr1, hT2, hr2,
                            hT3, hr3, hT4, hr4]
                          rw [hP3]
                          simp only [hp3]
                          rw [hT5]
                          simp only [hr5]
                        rw [hfs1]
                        exact summarize_repo_run2_full rn org cc sh cfg codec
                          prods oc5.fs d w1 w3 w4 e1F e2F e3F e4F hL h5

theorem repo_pipeline_idempotent_witness :
    (summarize_repo "r" "o" true 3 "ab" [] idemCodec idemProds true false
      ⟨[]⟩).res = .ok () ∧
    ((summarize_repo "r" "o" true 3 "ab" [] idemCodec idemProds true false
        (summarize_repo "r" "o" true 3 "ab" [] idemCodec idemProds true false
          ⟨[]⟩).fs).res = .ok () ∧
      (summarize_repo "r" "o" true 3 "ab" [] idemCodec idemProds true false
        (summarize_repo "r" "o" true 3 "ab" [] idemCodec idemProds true false
          ⟨[]⟩).fs).fs =
        (summarize_repo "r" "o" true 3 "ab" [] idemCodec idemProds true false
          ⟨[]⟩).fs ∧
      (summarize_repo "r" "o" true 3 "ab" [] idemCodec idemProds true false
        (summarize_repo "r" "o" true 3 "ab" [] idemCodec idemProds true false
          ⟨[]⟩).fs).calls = 0) :=
  ⟨rfl, repo_pipeline_idempotent "r" "o" 3 "ab" [] idemCodec idemProds ⟨[]⟩ rfl⟩


/-- C1: every `cache_file_check` invocation has exactly one of three
outcomes, decided in this order: (1) if the stage's own artifact exists its
content is returned with no producer call and no write; (2) otherwise, if
some file named (through the configuration) by a bypass key exists, `None`
is returned with no producer call and no write; (3) otherwise the producer
runs exactly once and its result is returned (and persisted when not
`None`). -/
theorem cache_file_check_trichotomy
    (fs : FS) (output_dir : FPath) (cfg : Config) (cache_key : String)
    (task : Except Err (Option String)) (default_filename : String)
    (bypass_keys : List String) (format_args : List (String × String))
    (fn : String)
    (hres : resolve_filename cfg cache_key default_filename format_args = some fn)
    (hok : ∃ b, bypass_scan fs output_dir cfg format_args bypass_keys = .ok b) :
    (∀ c, fs.find (output_dir ++ [fn]) = some c →
      cache_file_check fs output_dir cfg cache_key task default_filename
        bypass_keys format_args = ⟨.ok (some c), fs, false⟩) ∧
    (fs.find (output_dir ++ [fn]) = none →
      bypass_file_exists fs output_dir cfg format_args bypass_keys →
      cache_file_check fs output_dir cfg cache_key task default_filename
        bypass_keys format_args = ⟨.ok none, fs, false⟩) ∧
    (fs.find (output_dir ++ [fn]) = none →
      ¬ bypass_file_exists fs output_dir cfg format_args bypass_keys →
      (cache_file_check fs output_dir cfg cache_key task default_filename
          bypass_keys format_args).called = true ∧
      (∀ e, task = .error e →
        cache_file_check fs output_dir cfg cache_key task default_filename
          bypass_keys format_args = ⟨.error e, fs, true⟩) ∧
      (task = .ok none →
        cache_file_check fs output_dir cfg cache_key task default_filename
          bypass_keys format_args = ⟨.ok none, fs, true⟩) ∧
      (∀ s, task = .ok (some s) →
        cache_file_check fs output_dir cfg cache_key task default_filename
          bypass_keys format_args =
          ⟨.ok (some s), fs.write (output_dir ++ [fn]) s, true⟩)) := by
  refine ⟨fun c hc => cfc_cached hres hc, fun hn hex => ?_, fun hn hnex => ?_⟩
  · exact cfc_skip hres hn (bypass_scan_true_of_exists hok hex)
  · have hscan : bypass_scan fs output_dir cfg format_args bypass_keys = .ok false := by
      rcases hok with ⟨b, hb⟩
      cases b with
      | true => exact absurd (bypass_exists_of_scan_true hb) hnex
      | false => exact hb
    have hcomp := @cfc_compute fs output_dir cfg cache_key task
      default_filename bypass_keys format_args fn hres hn hscan
    refine ⟨?_, fun e he => ?_, fun he => ?_, fun s hs => ?_⟩
    · rw [hcomp]; cases task with
      | error e => rfl
      | ok r => cases r with
        | none => rfl
        | some s => rfl
    · rw [hcomp, he]
    · rw [hcomp, he]
    · rw [hcomp, hs]

/-- Witness for C1, on the cached branch at a concrete state. -/
theorem cache_file_check_trichotomy_witness :
    cache_file_check ⟨[(["d", "f"], "X")]⟩ ["d"] [] "k" (.ok (some "Y")) "f" [] [] =
      ⟨.ok (some "X"), ⟨[(["d", "f"], "X")]⟩, false⟩ :=
  (cache_file_check_trichotomy ⟨[(["d", "f"], "X")]⟩ ["d"] [] "k" (.ok (some "Y"))
    "f" [] [] "f" rfl ⟨false, rfl⟩).1 "X" rfl

/-- C4 counterexample: a producer returning the falsy empty string still
gets an artifact file written (`cache.py` line 75 tests `is not None`, not
truthiness), contradicting the claim that no file is written for a
falsy/empty result. -/
theorem cache_file_check_empty_string_written :
    (cache_file_check ⟨[]⟩ ["d"] [] "k" (.ok (some "")) "f" [] []).fs =
      FS.write ⟨[]⟩ ["d", "f"] "" ∧
    (cache_file_check ⟨[]⟩ ["d"] [] "k" (.ok (some "")) "f" [] []).fs ≠ ⟨[]⟩ := by
  constructor
  · rfl
  · intro h
    have : (FS.write ⟨[]⟩ ["d", "f"] "").files = ([] : List (FPath × String)) :=
      congrArg FS.files h
    simp [FS.write] at this

/-- C4 as amended: on the producer path, an artifact file is written if and
only if the producer result is not `None`; in particular a non-`None` empty
string *is* written, and only a `None` result (or a raising producer)
leaves the filesystem unchanged. -/
theorem cache_file_check_write_iff_not_none
    (fs : FS) (output_dir : FPath) (cfg : Config) (cache_key : String)
    (task : Except Err (Option String)) (default_filename : String)
    (bypass_keys : List String) (format_args : List (String × String))
    (fn : String)
    (hres : resolve_filename cfg cache_key default_filename format_args = some fn)
    (hn : fs.find (output_dir ++ [fn]) = none)
    (hscan : bypass_scan fs output_dir cfg format_args bypass_keys = .ok false) :
    (cache_file_check fs output_dir cfg cache_key task default_filename
      bypass_keys format_args).called = true ∧
    (task = .ok none →
      (cache_file_check fs output_dir cfg cache_key task default_filename
        bypass_keys format_args).fs = fs) ∧
    (∀ e, task = .error e →
      (cache_file_check fs output_dir cfg cache_key task default_filename
        bypass_keys format_args).fs = fs) ∧
    (∀ s, task = .ok (some s) →
      (cache_file_check fs output_dir cfg cache_key task default_filename
        bypass_keys format_args).fs = fs.write (output_dir ++ [fn]) s ∧
      (cache_file_check fs output_dir cfg cache_key task default_filename
        bypass_keys format_args).fs.existsb (output_dir ++ [fn]) = true) := by
  have hcomp := @cfc_compute fs output_dir cfg cache_key task
      default_filename bypass_keys format_args fn hres hn hscan
  refine ⟨?_, fun he => ?_, fun e he => ?_, fun s hs => ?_⟩
  · rw [hcomp]; cases task with
    | error e => rfl
    | ok r => cases r with
      | none => rfl
      | some s => rfl
  · rw [hcomp, he]
  · rw [hcomp, he]
  · rw [hcomp, hs]
    exact ⟨rfl, by rw [FS.existsb, FS.find_write_self]; rfl⟩

/-- Witness for the amended C4, exercising both the empty-string write and
the `None` no-write at concrete inputs. -/
theorem cache_file_check_write_iff_not_none_witness :
    (cache_file_check ⟨[]⟩ ["d"] [] "k" (.ok (some "")) "f" [] []).fs =
      FS.write ⟨[]⟩ ["d", "f"] "" ∧
    (cache_file_check ⟨[]⟩ ["d"] [] "k" (.ok none) "f" [] []).fs = ⟨[]⟩ :=
  ⟨((cache_file_check_write_iff_not_none ⟨[]⟩ ["d"] [] "k" (.ok (some "")) "f" [] []
      "f" rfl rfl rfl).2.2.2 "" rfl).1,
   (cache_file_check_write_iff_not_none ⟨[]⟩ ["d"] [] "k" (.ok none) "f" [] []
      "f" rfl rfl rfl).2.1 rfl⟩

/-- C7: whenever the substring from the first `\x7b` to the last `\x7d` of
an LLM categorization reply is not a decodable JSON object — including
replies with no such span at all — the parser returns the fallback
`\x7bapp: [], test: [], infra: []\x7d` without raising (the function is
total); when that substring decodes, the decoded object is returned. -/
theorem parse_file_categories_fallback_or_decoded
    (loads : String → Option Cat) (s : String) :
    (braceSpan s = none → parse_file_categories loads s = fallbackCat) ∧
    (∀ sub, braceSpan s = some sub → loads sub = none →
      parse_file_categories loads s = fallbackCat) ∧
    (∀ sub d, braceSpan s = some sub → loads sub = some d →
      parse_file_categories loads s = d) := by
  refine ⟨fun h => ?_, fun sub h hl => ?_, fun sub d h hl => ?_⟩
  · rw [parse_file_categories_eq_braceSpan loads s, h]
  · rw [parse_file_categories_eq_braceSpan loads s]
    simp only [h, hl]
  · rw [parse_file_categories_eq_braceSpan loads s]
    simp only [h, hl]

/-- Witness for C7: a decodable span is returned decoded; a reply with no
braces falls back. -/
theorem parse_file_categories_fallback_or_decoded_witness :
    parse_file_categories
      (fun t => if t = "{a}" then some [("app", ["f.py"])] else none) "x{a}y" =
      [("app", ["f.py"])] ∧
    parse_file_categories (fun _ => none) "no json here" = fallbackCat :=
  ⟨(parse_file_categories_fallback_or_decoded _ "x{a}y").2.2 "{a}"
      [("app", ["f.py"])] (by decide) (by decide),
   (parse_file_categories_fallback_or_decoded (fun _ => none) "no json here").1
      (by decide)⟩

/-- C10: when the categorization-result stage takes the cached path, the
artifact content is parsed by a strict `json.loads`: undecodable cached
content raises an uncaught `JSONDecodeError`; the producer-side fallback
never applies here. -/
theorem phase1_categorize_cached_strict
    (fs : FS) (output_dir : FPath) (cfg : Config)
    (format_args : List (String × String)) (codec : Codec)
    (llmReply : Except Err String) (fn content : String)
    (hres : resolve_filename cfg "categorization_result"
      "sum_repo.categorization.json" format_args = some fn)
    (hc : fs.find (output_dir ++ [fn]) = some content)
    (hbad : codec.loads content = none) :
    phase1_categorize_files fs output_dir cfg format_args codec llmReply =
      ⟨.error .jsonError, fs, false⟩ := by
  rw [phase1_categorize_files, cfcp_cached hres hc]
  simp only [jsonParser, hbad]

/-- Witness for C10 at a concrete cached artifact holding non-JSON text. -/
theorem phase1_categorize_cached_strict_witness :
    phase1_categorize_files
      ⟨[(["pullrequests", "o", "r", "sum", "sum_repo.categorization.json"], "not json")]⟩
      ["pullrequests", "o", "r", "sum"] [] (repo_format_args 3 "abc")
      ⟨fun _ => none, fun _ => "E"⟩ (.ok "reply") =
      ⟨.error .jsonError,
       ⟨[(["pullrequests", "o", "r", "sum", "sum_repo.categorization.json"], "not json")]⟩,
       false⟩ :=
  phase1_categorize_cached_strict _ _ _ _ _ _
    "sum_repo.categorization.json" "not json" (by decide) (by decide) rfl

/-- C8, on the divergence of the PR artifact paths: at `pr_number = 42` the
code resolves the output artifact to `summary.pr.42.ai.txt` directly under
the PR directory and the context artifact to `sum.context.md` under the
`sum` subdirectory — not to `sum.pr.42.context.md` / `sum.pr.42.ai.md`
directly under the PR's output directory as the claim (and the repo's own
tests and MCP server) expect. -/
theorem pr_artifact_paths_at_42 :
    pr_output_file "r" 42 = ["pullrequests", "r", "42", "summary.pr.42.ai.txt"] ∧
    pr_context_file "r" 42 = ["pullrequests", "r", "42", "sum", "sum.context.md"] ∧
    pr_output_file "r" 42 ≠ ["pullrequests", "r", "42", "sum.pr.42.ai.md"] ∧
    pr_context_file "r" 42 ≠ ["pullrequests", "r", "42", "sum.pr.42.context.md"] := by
  refine ⟨rfl, rfl, by decide, by decide⟩

/-- C3 counterexample: a batch of two valid repository units in which the
first unit's context collector raises.  The loop in `sum_repo` has no
try/except, so the exception propagates: the second unit is never
processed and the final `"Done."` line is never printed — contradicting
the claim that the driver catches the failure and continues. -/
theorem sum_repo_driver_abort_counterexample :
    (sum_repo_driver [] ⟨fun _ => none, fun _ => "E"⟩
      (fun n _ => if n = "r1"
        then ⟨true, 3, "abc",
          ⟨.error .producerError, .ok "x", .ok "x", .ok "x",
           fun _ => .ok "x", fun _ => .ok "x"⟩⟩
        else ⟨true, 3, "abc",
          ⟨.ok "c", .ok "x", .ok "x", .ok "x",
           fun _ => .ok "x", fun _ => .ok "x"⟩⟩)
      false [⟨some "r1", some "o"⟩, ⟨some "r2", some "o"⟩] ⟨[]⟩).res =
        .error .producerError ∧
    (sum_repo_driver [] ⟨fun _ => none, fun _ => "E"⟩
      (fun n _ => if n = "r1"
        then ⟨true, 3, "abc",
          ⟨.error .producerError, .ok "x", .ok "x", .ok "x",
           fun _ => .ok "x", fun _ => .ok "x"⟩⟩
        else ⟨true, 3, "abc",
          ⟨.ok "c", .ok "x", .ok "x", .ok "x",
           fun _ => .ok "x", fun _ => .ok "x"⟩⟩)
      false [⟨some "r1", some "o"⟩, ⟨some "r2", some "o"⟩] ⟨[]⟩).done = false ∧
    (sum_repo_driver [] ⟨fun _ => none, fun _ => "E"⟩
      (fun n _ => if n = "r1"
        then ⟨true, 3, "abc",
          ⟨.error .producerError, .ok "x", .ok "x", .ok "x",
           fun _ => .ok "x", fun _ => .ok "x"⟩⟩
        else ⟨true, 3, "abc",
          ⟨.ok "c", .ok "x", .ok "x", .ok "x",
           fun _ => .ok "x", fun _ => .ok "x"⟩⟩)
      false [⟨some "r1", some "o"⟩, ⟨some "r2", some "o"⟩] ⟨[]⟩).processed =
        [("o", "r1")] := by
  exact ⟨rfl, rfl, rfl⟩

/-- C3 as amended: in both batch drivers (repo and PR), a stage/producer
failure propagates uncaught out of the unit loop: the completion line is
printed exactly when no unit raised; on success every valid unit is
processed in order; on a failure the driver stops at the failing unit, the
processed units form an initial segment of the valid units, and the
completion line is not printed.  (Only invalid config entries are skipped
with the batch continuing.) -/
theorem batch_driver_failure_propagation
    (cfg : Config) (codec : Codec) (data : String → String → UnitData)
    (pr_repo : String) (pdata : Nat → PrUnitData) (context_only : Bool)
    (repos : List RepoEntry) (prs : List (Option Nat)) (fs fs2 : FS) :
    (((sum_repo_driver cfg codec data context_only repos fs).done = true ↔
        (sum_repo_driver cfg codec data context_only repos fs).res = .ok ()) ∧
      ((sum_repo_driver cfg codec data context_only repos fs).res = .ok () →
        (sum_repo_driver cfg codec data context_only repos fs).processed =
          valid_units repos) ∧
      (∀ e, (sum_repo_driver cfg codec data context_only repos fs).res = .error e →
        (sum_repo_driver cfg codec data context_only repos fs).done = false ∧
        ∃ later, valid_units repos =
          (sum_repo_driver cfg codec data context_only repos fs).processed ++ later)) ∧
    (((sum_pr_driver pr_repo pdata context_only prs fs2).done = true ↔
        (sum_pr_driver pr_repo pdata context_only prs fs2).res = .ok ()) ∧
      ((sum_pr_driver pr_repo pdata context_only prs fs2).res = .ok () →
        (sum_pr_driver pr_repo pdata context_only prs fs2).processed =
          valid_prs prs) ∧
      (∀ e, (sum_pr_driver pr_repo pdata context_only prs fs2).res = .error e →
        (sum_pr_driver pr_repo pdata context_only prs fs2).done = false ∧
        ∃ later, valid_prs prs =
          (sum_pr_driver pr_repo pdata context_only prs fs2).processed ++ later)) :=
  ⟨sum_repo_driver_props cfg codec data context_only repos fs,
   sum_pr_driver_props pr_repo pdata context_only prs fs2⟩

/-- Witness for the amended C3: at a concrete failing batch, the driver's
failure propagates and the completion line is not printed. -/
theorem batch_driver_failure_propagation_witness :
    (sum_repo_driver [] ⟨fun _ => none, fun _ => "E"⟩
      (fun _ _ => ⟨true, 3, "abc",
        ⟨.error .producerError, .ok "x", .ok "x", .ok "x",
         fun _ => .ok "x", fun _ => .ok "x"⟩⟩)
      false [⟨some "r1", some "o"⟩] ⟨[]⟩).done = false ∧
    (∃ later, valid_units [⟨some "r1", some "o"⟩] =
      (sum_repo_driver [] ⟨fun _ => none, fun _ => "E"⟩
        (fun _ _ => ⟨true, 3, "abc",
          ⟨.error .producerError, .ok "x", .ok "x", .ok "x",
           fun _ => .ok "x", fun _ => .ok "x"⟩⟩)
        false [⟨some "r1", some "o"⟩] ⟨[]⟩).processed ++ later) :=
  (batch_driver_failure_propagation [] ⟨fun _ => none, fun _ => "E"⟩
    (fun _ _ => ⟨true, 3, "abc",
      ⟨.error .producerError, .ok "x", .ok "x", .ok "x",
       fun _ => .ok "x", fun _ => .ok "x"⟩⟩)
    "r" (fun _ => ⟨true, .ok "c", .ok "s"⟩) false
    [⟨some "r1", some "o"⟩] [] ⟨[]⟩ ⟨[]⟩).1.2.2 .producerError rfl

/-- C2 counterexample: under the default empty cache-filenames
configuration, a unit whose directory holds only the final combined report
re-runs four producers (both context collectors and both LLM spine stages)
— `cache_files_config.get(bypass_key)` has no default-filename fallback,
so with an empty configuration no bypass key ever names a file.  Only the
final stage reports `Cached`.  This contradicts the claimed zero producer
invocations under the default (empty) configuration. -/
theorem repo_rerun_empty_config_reruns_producers :
    (summarize_repo "r" "o" true 3 "abc" []
      ⟨fun s => if s = "E" then some fallbackCat else none, fun _ => "E"⟩
      ⟨.ok "ctx", .ok "nobraces", .ok "sctx", .ok "ssum",
       fun _ => .ok "cc", fun _ => .ok "cs"⟩
      true false
      ⟨[(["pullrequests", "o", "r", "sum", "sum.repo.3.abc.ai.md"],
        "final")]⟩).calls = 4 ∧
    (summarize_repo "r" "o" true 3 "abc" []
      ⟨fun s => if s = "E" then some fallbackCat else none, fun _ => "E"⟩
      ⟨.ok "ctx", .ok "nobraces", .ok "sctx", .ok "ssum",
       fun _ => .ok "cc", fun _ => .ok "cs"⟩
      true false
      ⟨[(["pullrequests", "o", "r", "sum", "sum.repo.3.abc.ai.md"],
        "final")]⟩).trace =
      [("categorization_context", .computed), ("categorization_result", .computed),
       ("structure_context", .computed), ("structure_result", .computed),
       ("output", .cached)] :=
  ⟨rfl, rfl⟩

/-- C2 as amended: when the first stage's own artifact is absent and its
bypass scan finds a configured downstream artifact — which requires the
cache-filenames configuration to map that bypass key, since bypass lookups
have no default-filename fallback — `summarize_repo` performs zero
producer invocations: the first stage reports `Skipped` and the pipeline
returns immediately; no later stage (including the final one) is even
consulted, so the final stage does not report `Cached`. -/
theorem summarize_repo_bypass_immediate_skip
    (rn org : String) (cc : Nat) (sh : String) (cfg : Config) (codec : Codec)
    (prods : Producers) (lp co : Bool) (fs : FS) (fn : String)
    (hres : resolve_filename cfg "categorization_context"
      "sum_repo.categorization.context.md" (repo_format_args cc sh) = some fn)
    (hn : fs.find (repo_output_dir org rn ++ [fn]) = none)
    (hok : ∃ b, bypass_scan fs (repo_output_dir org rn) cfg
      (repo_format_args cc sh) phase1_bypass_keys = .ok b)
    (hex : bypass_file_exists fs (repo_output_dir org rn) cfg
      (repo_format_args cc sh) phase1_bypass_keys) :
    summarize_repo rn org true cc sh cfg codec prods lp co fs =
      ⟨.ok (), fs, 0, [("categorization_context", .skipped)]⟩ := by
  have hscan := bypass_scan_true_of_exists hok hex
  have h1a : phase1_collect_context fs (repo_output_dir org rn) cfg
      (repo_format_args cc sh) prods.collectCat = ⟨.ok none, fs, false⟩ := by
    unfold phase1_collect_context
    exact cfc_skip hres hn hscan
  simp [summarize_repo, h1a, CFCOut.oc, natOf]

/-- Witness for the amended C2: full default configuration, only the final
combined report present — the run is one `Skipped` first stage, zero
producer calls, filesystem untouched. -/
theorem summarize_repo_bypass_immediate_skip_witness :
    summarize_repo "r" "o" true 3 "abc" cfgFullDefault
      ⟨fun s => if s = "E" then some fallbackCat else none, fun _ => "E"⟩
      ⟨.ok "ctx", .ok "nobraces", .ok "sctx", .ok "ssum",
       fun _ => .ok "cc", fun _ => .ok "cs"⟩
      true false
      ⟨[(["pullrequests", "o", "r", "sum", "sum.repo.3.abc.ai.md"], "final")]⟩ =
      ⟨.ok (),
       ⟨[(["pullrequests", "o", "r", "sum", "sum.repo.3.abc.ai.md"], "final")]⟩,
       0, [("categorization_context", .skipped)]⟩ :=
  summarize_repo_bypass_immediate_skip "r" "o" 3 "abc" cfgFullDefault
    ⟨fun s => if s = "E" then some fallbackCat else none, fun _ => "E"⟩
    ⟨.ok "ctx", .ok "nobraces", .ok "sctx", .ok "ssum",
     fun _ => .ok "cc", fun _ => .ok "cs"⟩
    true false
    ⟨[(["pullrequests", "o", "r", "sum", "sum.repo.3.abc.ai.md"], "final")]⟩
    "sum_repo.categorization.context.md" rfl rfl ⟨true, rfl⟩
    ⟨"output", "sum.repo.{commit_count}.{short_hash}.ai.md",
     "sum.repo.3.abc.ai.md", by decide, rfl, rfl, rfl⟩

/-- C9 counterexample: the four spine artifacts plus the test-category
artifacts exist, the app category is nonempty, and the app-context stage
returns `None` via the bypass on the existing test-context artifact.  Yet
`summarize_repo` does *not* return: it continues with the test category
(both stages `Cached`) and the final combiner runs its producer and writes
the absent combined report.  The category loop turns a bypass `None` into
`continue`, not into an early return. -/
theorem category_bypass_skip_does_not_return :
    (summarize_repo "r" "o" true 3 "abc" cfgFullDefault
      ⟨fun s => if s = "D" then some [("app", ["a"]), ("test", ["t"]), ("infra", [])]
                else if s = "E" then some fallbackCat else none,
       fun _ => "E"⟩
      ⟨.ok "ctx", .ok "nobraces", .ok "sctx", .ok "ssum",
       fun _ => .ok "cc", fun _ => .ok "cs"⟩
      true false
      ⟨[(["pullrequests", "o", "r", "sum", "sum_repo.categorization.context.md"], "c1"),
        (["pullrequests", "o", "r", "sum", "sum_repo.categorization.json"], "D"),
        (["pullrequests", "o", "r", "sum", "sum_repo.structure.context.md"], "c2"),
        (["pullrequests", "o", "r", "sum", "sum_repo.structure.md"], "ss"),
        (["pullrequests", "o", "r", "sum", "sum_repo.test.context.md"], "tc"),
        (["pullrequests", "o", "r", "sum", "sum_repo.test.md"], "ts")]⟩).trace =
      [("categorization_context", .cached), ("categorization_result", .cached),
       ("structure_context", .cached), ("structure_result", .cached),
       ("app_context", .skipped), ("test_context", .cached),
       ("test_result", .cached), ("output", .computed)] ∧
    (summarize_repo "r" "o" true 3 "abc" cfgFullDefault
      ⟨fun s => if s = "D" then some [("app", ["a"]), ("test", ["t"]), ("infra", [])]
                else if s = "E" then some fallbackCat else none,
       fun _ => "E"⟩
      ⟨.ok "ctx", .ok "nobraces", .ok "sctx", .ok "ssum",
       fun _ => .ok "cc", fun _ => .ok "cs"⟩
      true false
      ⟨[(["pullrequests", "o", "r", "sum", "sum_repo.categorization.context.md"], "c1"),
        (["pullrequests", "o", "r", "sum", "sum_repo.categorization.json"], "D"),
        (["pullrequests", "o", "r", "sum", "sum_repo.structure.context.md"], "c2"),
        (["pullrequests", "o", "r", "sum", "sum_repo.structure.md"], "ss"),
        (["pullrequests", "o", "r", "sum", "sum_repo.test.context.md"], "tc"),
        (["pullrequests", "o", "r", "sum", "sum_repo.test.md"], "ts")]⟩).calls = 1 ∧
    ((summarize_repo "r" "o" true 3 "abc" cfgFullDefault
      ⟨fun s => if s = "D" then some [("app", ["a"]), ("test", ["t"]), ("infra", [])]
                else if s = "E" then some fallbackCat else none,
       fun _ => "E"⟩
      ⟨.ok "ctx", .ok "nobraces", .ok "sctx", .ok "ssum",
       fun _ => .ok "cc", fun _ => .ok "cs"⟩
      true false
      ⟨[(["pullrequests", "o", "r", "sum", "sum_repo.categorization.context.md"], "c1"),
        (["pullrequests", "o", "r", "sum", "sum_repo.categorization.json"], "D"),
        (["pullrequests", "o", "r", "sum", "sum_repo.structure.context.md"], "c2"),
        (["pullrequests", "o", "r", "sum", "sum_repo.structure.md"], "ss"),
        (["pullrequests", "o", "r", "sum", "sum_repo.test.context.md"], "tc"),
        (["pullrequests", "o", "r", "sum", "sum_repo.test.md"], "ts")]⟩).fs.find
      ["pullrequests", "o", "r", "sum", "sum.repo.3.abc.ai.md"]).isSome = true :=
  ⟨rfl, rfl, rfl⟩

/-- C9 as amended: a `None` return from one of the four *spine* stages
(categorization context/result, structure context/result) does end the run
immediately — `summarize_repo` returns with the state and trace as of that
stage, and no later stage is consulted.  A `None` from a *category* stage,
however, only advances the loop to the next category (see the
counterexample): later categories and the final combiner still run. -/
theorem summarize_repo_spine_none_returns_immediately
    (rn org : String) (cc : Nat) (sh : String) (cfg : Config) (codec : Codec)
    (prods : Producers) (fs : FS) :
    let od := repo_output_dir org rn
    let fargs := repo_format_args cc sh
    let o1a := phase1_collect_context fs od cfg fargs prods.collectCat
    let o1b := phase1_categorize_files o1a.fs od cfg fargs codec prods.llmCatReply
    let o2a := phase2_collect_structure_context o1b.fs od cfg fargs prods.collectStruct
    let o2b := phase2_summarize_structure o2a.fs od cfg fargs prods.llmStruct
    (o1a.ret = .ok none →
      summarize_repo rn org true cc sh cfg codec prods true false fs =
        ⟨.ok (), o1a.fs, natOf o1a.called, [("categorization_context", o1a.oc)]⟩) ∧
    (∀ v, o1a.ret = .ok (some v) → o1b.ret = .ok none →
      summarize_repo rn org true cc sh cfg codec prods true false fs =
        ⟨.ok (), o1b.fs, natOf o1a.called + natOf o1b.called,
         [("categorization_context", o1a.oc), ("categorization_result", o1b.oc)]⟩) ∧
    (∀ v d, o1a.ret = .ok (some v) → o1b.ret = .ok (some d) → o2a.ret = .ok none →
      summarize_repo rn org true cc sh cfg codec prods true false fs =
        ⟨.ok (), o2a.fs, natOf o1a.called + natOf o1b.called + natOf o2a.called,
         [("categorization_context", o1a.oc), ("categorization_result", o1b.oc),
          ("structure_context", o2a.oc)]⟩) ∧
    (∀ v d w, o1a.ret = .ok (some v) → o1b.ret = .ok (some d) →
      o2a.ret = .ok (some w) → o2b.ret = .ok none →
      summarize_repo rn org true cc sh cfg codec prods true false fs =
        ⟨.ok (), o2b.fs,
         natOf o1a.called + natOf o1b.called + natOf o2a.called + natOf o2b.called,
         [("categorization_context", o1a.oc), ("categorization_result", o1b.oc),
          ("structure_context", o2a.oc), ("structure_result", o2b.oc)]⟩) := by
  refine ⟨fun h1 => ?_, fun v h1 h2 => ?_, fun v d h1 h2 h3 => ?_,
    fun v d w h1 h2 h3 h4 => ?_⟩
  · simp [summarize_repo, h1]
  · simp [summarize_repo, h1, h2]
  · simp [summarize_repo, h1, h2, h3]
  · simp [summarize_repo, h1, h2, h3, h4]

/-- Witness for the amended C9: with only the structure-result artifact
present under the full default configuration, the first stage skips and
the pipeline returns at once. -/
theorem summarize_repo_spine_none_returns_immediately_witness :
    summarize_repo "r" "o" true 3 "abc" cfgFullDefault
      ⟨fun s => if s = "E" then some fallbackCat else none, fun _ => "E"⟩
      ⟨.ok "ctx", .ok "nobraces", .ok "sctx", .ok "ssum",
       fun _ => .ok "cc", fun _ => .ok "cs"⟩
      true false
      ⟨[(["pullrequests", "o", "r", "sum", "sum_repo.structure.md"], "ss")]⟩ =
      ⟨.ok (), ⟨[(["pullrequests", "o", "r", "sum", "sum_repo.structure.md"], "ss")]⟩,
       0, [("categorization_context", .skipped)]⟩ :=
  (summarize_repo_spine_none_returns_immediately "r" "o" 3 "abc" cfgFullDefault
    ⟨fun s => if s = "E" then some fallbackCat else none, fun _ => "E"⟩
    ⟨.ok "ctx", .ok "nobraces", .ok "sctx", .ok "ssum",
     fun _ => .ok "cc", fun _ => .ok "cs"⟩
    ⟨[(["pullrequests", "o", "r", "sum", "sum_repo.structure.md"], "ss")]⟩).1 rfl

/-- C6: the create-if-absent no-overwrite invariant.  For any run of either
pipeline (repository or PR), a file that exists before the run has exactly
the same content after it: both pipelines write only through guarded
writes at paths that did not exist at check time, and delete nothing. -/
theorem pipelines_never_overwrite
    (rn org : String) (p : Bool) (cc : Nat) (sh : String) (cfg : Config)
    (codec : Codec) (prods : Producers) (lp co : Bool) (fs : FS)
    (prn : String) (pr : Nat) (pp : Bool) (cctx : Except Err String)
    (llm : Option (Except Err String)) (co2 : Bool) (fs2 : FS)
    (path : FPath) (content : String) :
    (fs.find path = some content →
      (summarize_repo rn org p cc sh cfg codec prods lp co fs).fs.find path =
        some content) ∧
    (fs2.find path = some content →
      (summarize_pr prn pr pp cctx llm co2 fs2).fs.find path = some content) :=
  ⟨fun h => summarize_repo_sub rn org p cc sh cfg codec prods lp co fs path content h,
   fun h => summarize_pr_sub prn pr pp cctx llm co2 fs2 path content h⟩

/-- Witness for C6: a pre-existing file survives a fresh full repository
run and a fresh PR run unchanged. -/
theorem pipelines_never_overwrite_witness :
    (summarize_repo "r" "o" true 3 "abc" []
      ⟨fun s => if s = "E" then some fallbackCat else none, fun _ => "E"⟩
      ⟨.ok "c", .ok "x", .ok "x", .ok "x", fun _ => .ok "x", fun _ => .ok "x"⟩
      true false ⟨[(["keep", "me"], "v")]⟩).fs.find ["keep", "me"] = some "v" ∧
    (summarize_pr "r" 7 true (.ok "c") (some (.ok "s")) false
      ⟨[(["keep", "me"], "v")]⟩).fs.find ["keep", "me"] = some "v" :=
  ⟨(pipelines_never_overwrite "r" "o" true 3 "abc" []
      ⟨fun s => if s = "E" then some fallbackCat else none, fun _ => "E"⟩
      ⟨.ok "c", .ok "x", .ok "x", .ok "x", fun _ => .ok "x", fun _ => .ok "x"⟩
      true false ⟨[(["keep", "me"], "v")]⟩ "r" 7 true (.ok "c")
      (some (.ok "s")) false ⟨[(["keep", "me"], "v")]⟩
      ["keep", "me"] "v").1 rfl,
   (pipelines_never_overwrite "r" "o" true 3 "abc" []
      ⟨fun s => if s = "E" then some fallbackCat else none, fun _ => "E"⟩
      ⟨.ok "c", .ok "x", .ok "x", .ok "x", fun _ => .ok "x", fun _ => .ok "x"⟩
      true false ⟨[(["keep", "me"], "v")]⟩ "r" 7 true (.ok "c")
      (some (.ok "s")) false ⟨[(["keep", "me"], "v")]⟩
      ["keep", "me"] "v").2 rfl⟩

end Crev
